import Mathlib

/-!
Verification development for the budget_nerd statement-parsing backend.

Strings from the Python source are embedded as `List Char`; Python `None`
becomes `Option`; Python floats carrying currency values become `ℚ`
(the source only ever compares and adds decimal currency amounts, which
`ℚ` represents exactly).  Functions are translated from
`src/backend/src/utils.py` and `src/backend/src/pdf_parser.py`.
The module `constants.py` that `pdf_parser.py` imports is absent from the
sources; every definition standing in for one of its members carries a
doc comment starting with `Modelled from the spec:`.
-/

namespace BudgetNerd

/-- Characters Python `str.strip()` removes (ASCII whitespace plus NBSP). -/
def isWsChar (c : Char) : Bool :=
  c = ' ' || c = '\t' || c = '\n' || c = '\r' || c = '\x0b' || c = '\x0c' || c = ' '

/-- Python `str.strip()`: drop leading and trailing whitespace. -/
def pyStrip (l : List Char) : List Char :=
  ((l.dropWhile isWsChar).reverse.dropWhile isWsChar).reverse

/-- Python `str.count(c)` for a single character. -/
def countChar (c : Char) (l : List Char) : Nat :=
  l.countP (fun x => x = c)

/-- Python `str.replace(c, "")` for a single character. -/
def removeChar (c : Char) (l : List Char) : List Char :=
  l.filter (fun x => x ≠ c)

/-- ASCII digit test (Python `\d` with ASCII input). -/
def isDigitCh (c : Char) : Bool :=
  '0' ≤ c && c ≤ '9'

/-- Nonempty all-digit string: the regex `\d+`, also Python `str.isdigit()`
for the ASCII tokens this code sees. -/
def allDigits (l : List Char) : Bool :=
  !l.isEmpty && l.all isDigitCh

/-- Split a list at the first occurrence of `c` (Python `str.split(c, 1)`
when a split happens; `none` when `c` does not occur). -/
def splitFirst (c : Char) : List Char → Option (List Char × List Char)
  | [] => none
  | x :: xs =>
    if x = c then some ([], xs)
    else (splitFirst c xs).map (fun p => (x :: p.1, p.2))

/-- The regex `\d+(?:\.\d+)?` as a full-string match (utils.py line 63). -/
def coreMatch (l : List Char) : Bool :=
  match splitFirst '.' l with
  | none => allDigits l
  | some (i, f) => allDigits i && allDigits f

/-- Digit string to `Nat`. -/
def parseNatDigits (l : List Char) : Nat :=
  l.foldl (fun acc c => 10 * acc + (c.toNat - 48)) 0

/-- Value of a string matching `\d+(?:\.\d+)?` (Python `float(core)` on the
already-validated core token). -/
def ratOfCore (l : List Char) : ℚ :=
  match splitFirst '.' l with
  | none => (parseNatDigits l : ℚ)
  | some (i, f) => (parseNatDigits i : ℚ) + (parseNatDigits f : ℚ) / ((10 : ℚ) ^ f.length)

/-- The stripping stage of `utils.normalize_number` (lines 50-62): strip
whitespace, a single trailing minus, wrapping parentheses, `$` and `,`
symbols, and a leading minus.  Returns the accumulated negativity flag and
the remaining core token. -/
def stripCore (raw : List Char) : Bool × List Char :=
  let token := pyStrip raw
  let neg1 := token.getLast? = some '-' && countChar '-' token = 1
  let token1 := if neg1 then token.dropLast else token
  let paren := token1.head? = some '(' && token1.getLast? = some ')'
  let token2 := if paren then (token1.drop 1).dropLast else token1
  let nosym := removeChar ',' (removeChar '$' token2)
  let negLead := nosym.head? = some '-'
  let core := if negLead then nosym.drop 1 else nosym
  (neg1 || paren || negLead, core)

/-- Fraction-length check and single-digit padding (utils.py lines
67-72): a decimal point requires 1-2 fraction digits, and one digit is
padded to two. -/
def padFrac (core0 : List Char) : Option (List Char) :=
  match splitFirst '.' core0 with
  | none => some core0
  | some (i, f) =>
    if 1 ≤ f.length ∧ f.length ≤ 2 then
      some (if f.length = 1 then i ++ '.' :: (f ++ ['0']) else core0)
    else none

/-- The checks `normalize_number` runs after stripping (utils.py lines
63-79): regex match, bare-integer length cap, fraction handling, value
conversion, magnitude cap, sign application. -/
def normalizeCore (neg : Bool) (core0 : List Char) : Option ℚ :=
  if !coreMatch core0 then none
  else if !core0.contains '.' && decide (core0.length > 7) then none
  else
    match padFrac core0 with
    | none => none
    | some core =>
      let v := ratOfCore core
      if v > 1000000000 then none
      else some (if neg then -v else v)

/-- `utils.normalize_number` (utils.py lines 43-79): parse a currency-like
token into a signed decimal, or `none` on any violation. -/
def normalizeNumber (raw : List Char) : Option ℚ :=
  if raw.isEmpty then none
  else normalizeCore (stripCore raw).1 (stripCore raw).2

/-- Uppercase one ASCII character (Python `str.upper()` on the ASCII text
this code sees). -/
def upChar (c : Char) : Char :=
  if 'a' ≤ c ∧ c ≤ 'z' then Char.ofNat (c.toNat - 32) else c

/-- Python `str.upper()`. -/
def toUpperL (l : List Char) : List Char :=
  l.map upChar

/-- Substring containment: Python `pat in s`. -/
def containsSub (pat : List Char) : List Char → Bool
  | [] => pat.isEmpty
  | c :: xs => pat.isPrefixOf (c :: xs) || containsSub pat xs

/-- Regex word character `\w` for the ASCII text this code sees. -/
def isWordChar (c : Char) : Bool :=
  isDigitCh c || ('A' ≤ c && c ≤ 'Z') || ('a' ≤ c && c ≤ 'z') || c = '_'

/-- A `\b` boundary holds before the match when the previous character is
absent or not a word character. -/
def boundaryOk (prev : Option Char) : Bool :=
  match prev with
  | none => true
  | some c => !isWordChar c

/-- A `\b` boundary holds after the match when the next character is absent
or not a word character. -/
def afterBoundary (pat s : List Char) : Bool :=
  match (s.drop pat.length).head? with
  | none => true
  | some c => !isWordChar c

def wbSearchAux (pat : List Char) : Option Char → List Char → Bool
  | prev, [] => boundaryOk prev && pat.isPrefixOf ([] : List Char) && afterBoundary pat []
  | prev, c :: xs =>
    (boundaryOk prev && pat.isPrefixOf (c :: xs) && afterBoundary pat (c :: xs))
    || wbSearchAux pat (some c) xs

/-- `re.search` of a literal pattern wrapped in `\b...\b` word boundaries;
the literals used in the source begin and end with word characters. -/
def wbSearch (pat s : List Char) : Bool :=
  wbSearchAux pat none s

/-- CREDIT_DESC_HINTS (pdf_parser.py lines 65-73). -/
def CREDIT_DESC_HINTS : List (List Char) :=
  ["DEPOSIT", "CREDIT", "INTEREST", "REFUND", "REVERSAL", "PAYROLL",
   "PAYMENT RECEIVED"].map String.toList

/-- DEBIT_DESC_HINTS (pdf_parser.py lines 74-84). -/
def DEBIT_DESC_HINTS : List (List Char) :=
  ["WITHDRAW", "DEBIT", "PURCHASE", "PAYMENT", "FEE", "CHARGE", "CHECK",
   "BILLPAY", "PMT"].map String.toList

/-- `pdf_parser.infer_signed_amount` (lines 378-396).  The section sign is
authoritative; otherwise two specific phrase overrides, then the
credit/debit keyword-hint sets. -/
def inferSignedAmount (amount : ℚ) (desc : List Char) (sectionSign : Option Int) : ℚ :=
  if sectionSign = some 1 then |amount|
  else if sectionSign = some (-1) then -|amount|
  else
    let descUp := toUpperL desc
    if wbSearch "INTEREST PAYMENT".toList descUp || wbSearch "INTEREST PAID".toList descUp then
      |amount|
    else if wbSearch "CREDIT CARD PMT".toList descUp ||
        wbSearch "CREDIT CARD PAYMENT".toList descUp then
      -|amount|
    else
      let creditHit := CREDIT_DESC_HINTS.any (fun h => containsSub h descUp)
      let debitHit := DEBIT_DESC_HINTS.any (fun h => containsSub h descUp)
      if creditHit && debitHit then -|amount|
      else if creditHit then |amount|
      else if debitHit then -|amount|
      else amount

/-- Modelled from the spec: `CREDIT_CARD_DETECT_PATTERNS` lives in
`constants.py`, which is absent from the sources.  Per the spec the
patterns are the three indicator phrases "Minimum Payment Due",
"Credit Limit", "Statement Closing Date", matched case-insensitively. -/
def CC_DETECT_PHRASES : List (List Char) :=
  ["MINIMUM PAYMENT DUE", "CREDIT LIMIT", "STATEMENT CLOSING DATE"].map String.toList

/-- One indicator pattern searched in one line (case-insensitive). -/
def ccPatternHit (phrase line : List Char) : Bool :=
  containsSub phrase (toUpperL line)

/-- Number of indicator patterns hitting a single line (the inner loop of
`detect_credit_card`, which adds 1 per pattern that matches the line). -/
def ccLineScore (line : List Char) : Nat :=
  (CC_DETECT_PHRASES.filter (fun p => ccPatternHit p line)).length

/-- `pdf_parser.detect_credit_card` (lines 127-144): sum the per-line
pattern-hit counts over the first 120 lines and flag once the total
reaches 2 (the source's early return at `score >= 2` is equivalent). -/
def detectCreditCard (lines : List (List Char)) : Bool :=
  decide (2 ≤ (lines.take 120).foldl (fun sc ln => sc + ccLineScore ln) 0)

/-- Number of distinct indicator patterns that match anywhere in the first
120 lines — the quantity the spec and the source docstring describe. -/
def distinctIndicatorCount (lines : List (List Char)) : Nat :=
  (CC_DETECT_PHRASES.filter (fun p => (lines.take 120).any (fun ln => ccPatternHit p ln))).length

/-- Python `str.split()` with no argument: split on whitespace runs,
producing no empty tokens. -/
def splitWsAux : List Char → List Char → List (List Char)
  | [], acc => if acc.isEmpty then [] else [acc.reverse]
  | c :: xs, acc =>
    if isWsChar c then
      if acc.isEmpty then splitWsAux xs [] else acc.reverse :: splitWsAux xs []
    else splitWsAux xs (c :: acc)

def splitWs (l : List Char) : List (List Char) :=
  splitWsAux l []

/-- Python `" ".join(tokens)`. -/
def joinWs (ts : List (List Char)) : List Char :=
  List.intercalate [' '] ts

/-- Python re.split on the class of `/` and `-`: split on every such
character, keeping
empty segments. -/
def splitSepsAux : List Char → List Char → List (List Char)
  | [], acc => [acc.reverse]
  | c :: xs, acc =>
    if c = '/' ∨ c = '-' then acc.reverse :: splitSepsAux xs []
    else splitSepsAux xs (c :: acc)

def splitSeps (l : List Char) : List (List Char) :=
  splitSepsAux l []

/-- Python `int(str)`: optional sign then digits (whitespace stripped). -/
def parseIntPy (l : List Char) : Option Int :=
  match pyStrip l with
  | '-' :: ds => if allDigits ds then some (-(parseNatDigits ds : Int)) else none
  | '+' :: ds => if allDigits ds then some ((parseNatDigits ds : Int)) else none
  | ds => if allDigits ds then some ((parseNatDigits ds : Int)) else none

def isLeap (y : Nat) : Bool :=
  y % 4 = 0 && (y % 100 ≠ 0 || y % 400 = 0)

def daysInMonth (y m : Nat) : Nat :=
  if m = 2 then (if isLeap y then 29 else 28)
  else if m = 4 ∨ m = 6 ∨ m = 9 ∨ m = 11 then 30
  else 31

/-- The dates `datetime(y, m, d)` accepts without raising. -/
def dateValid (y m d : Nat) : Bool :=
  1 ≤ y && y ≤ 9999 && 1 ≤ m && m ≤ 12 && 1 ≤ d && d ≤ daysInMonth y m

/-- Result of `parse_date`: either a calendar date or the original raw
token when parsing fails. -/
inductive DateVal where
  | ymd (y m d : Nat)
  | raw (s : List Char)
deriving DecidableEq, Repr

/-- Take up to `n` leading digits. -/
def takeDigitsUpTo (n : Nat) (l : List Char) : List Char :=
  (l.takeWhile isDigitCh).take n

def isSepCh (c : Char) : Bool :=
  c = '/' || c = '-'

/-- Modelled from the spec: `DATE_START_RX` / `DATE_PREFIX_RX` live in
`constants.py`, which is absent from the sources.  Per the spec a leading
date token is 1-2 digits, a slash-or-hyphen separator, 1-2 digits, then
optionally another separator and a 2- to 4-digit year, matched at the start of
the line; the result is the matched token and the remainder. -/
def dateStartMatch (line : List Char) : Option (List Char × List Char) :=
  let d1 := line.takeWhile isDigitCh
  if d1.isEmpty || decide (2 < d1.length) then none
  else
    let rest1 := line.drop d1.length
    match rest1 with
    | s1 :: rest2 =>
      if !isSepCh s1 then none
      else
        let d2full := rest2.takeWhile isDigitCh
        if d2full.isEmpty then none
        else
          let d2 := d2full.take 2
          let rest3 := rest2.drop d2.length
          let noYear := (d1 ++ s1 :: d2, rest3)
          match rest3 with
          | s2 :: rest4 =>
            if isSepCh s2 then
              let yd := takeDigitsUpTo 4 rest4
              if decide (2 ≤ yd.length) then
                (d1 ++ s1 :: d2 ++ s2 :: yd, rest4.drop yd.length)
              else noYear
            else noYear
          | [] => noYear
    | [] => none

/-- `DATE_PREFIX_RX.match(line)` as a boolean. -/
def hasDatePrefix (line : List Char) : Bool :=
  (dateStartMatch line).isSome

/-- A whole token that is a date token (used by the credit-card grammar
and by `infer_date_order`). -/
def isDateToken (t : List Char) : Bool :=
  match dateStartMatch t with
  | some (tok, rest) => rest.isEmpty && tok = t
  | none => false

/-- Modelled from the spec: `DATE_FORMATS` lives in `constants.py`, which
is absent from the sources.  Per the spec full dates are month/day/year
with `/` or `-` separators and 2- or 4-digit years (2-digit years read as
20xx). -/
def parseDateFormats (raw : List Char) : DateVal :=
  match splitSeps raw with
  | [p1, p2, p3] =>
    if allDigits p1 && allDigits p2 && allDigits p3 &&
        decide (p1.length ≤ 2) && decide (p2.length ≤ 2) &&
        (p3.length = 2 || p3.length = 4) then
      let y := if p3.length = 2 then 2000 + parseNatDigits p3 else parseNatDigits p3
      if dateValid y (parseNatDigits p1) (parseNatDigits p2) then
        DateVal.ymd y (parseNatDigits p1) (parseNatDigits p2)
      else DateVal.raw raw
    else DateVal.raw raw
  | _ => DateVal.raw raw

/-- `pdf_parser.parse_date` (lines 224-253): two-segment dates use the
default year and the inferred date order; other shapes fall back to the
full-date formats; failure returns the raw token. -/
def parseDate (raw : List Char) (defaultYear : Option Nat) (dateOrder : Option (List Char)) :
    DateVal :=
  match splitSeps raw, defaultYear with
  | [p1, p2], some yr =>
    match parseIntPy p1, parseIntPy p2 with
    | some a, some b =>
      let md : Int × Int :=
        if a > 12 ∧ b ≤ 12 then (b, a)
        else if b > 12 ∧ a ≤ 12 then (a, b)
        else if dateOrder = some "DM".toList then (b, a)
        else (a, b)
      if dateValid yr md.1.toNat md.2.toNat && decide (0 ≤ md.1) && decide (0 ≤ md.2) then
        DateVal.ymd yr md.1.toNat md.2.toNat
      else DateVal.raw raw
    | _, _ => DateVal.raw raw
  | _, _ => parseDateFormats raw

/-- One parsed output row (the record dict built by the line parsers).
`account_*` and monetary fields use `Option` for Python `None`;
`post_date` is `none` for the parsers that do not set the key. -/
structure Rec where
  date : DateVal
  date_raw : List Char
  post_date : Option DateVal
  description : List Char
  amount : Option ℚ
  debit : Option ℚ
  credit : Option ℚ
  balance : Option ℚ
  account_name : Option (List Char)
  account_number : Option (List Char)
  account_type : Option (List Char)
  line_type : List Char
  raw_line : List Char
  page : Nat
  raw_line_index : Nat
deriving DecidableEq, Repr

/-- Modelled from the spec: `AMOUNT_TOKEN_RX` lives in `constants.py`,
which is absent from the sources.  Per the spec amount-shaped tokens are
parenthesized, dollar-prefixed, or comma-grouped numerics, optionally
signed and with an optional decimal part; modelled as a token made of
digits and currency punctuation containing at least one digit. -/
def isAmountToken (t : List Char) : Bool :=
  !t.isEmpty && t.any isDigitCh &&
    t.all (fun c => isDigitCh c || c = '$' || c = ',' || c = '.' ||
      c = '(' || c = ')' || c = '-')

/-- CC_PAYMENT_STRICT_RX (pdf_parser.py lines 93-96): payment phrasing,
searched with word boundaries on the uppercased description. -/
def ccPaymentStrict (descUp : List Char) : Bool :=
  ["PAYMENT RECEIVED", "ONLINE PAYMENT", "ELECTRONIC PAYMENT", "ACH PAYMENT",
   "BILL PAYMENT", "AUTO PAY", "AUTOPAY"].any
    (fun p => wbSearch p.toList descUp)

/-- Modelled from the spec: `CC_CREDIT_KEYWORDS` lives in `constants.py`,
which is absent from the sources.  Per the spec these are the generic
credit/refund keywords. -/
def CC_CREDIT_KEYWORDS : List (List Char) :=
  ["CREDIT", "REFUND"].map String.toList

/-- Modelled from the spec: `CC_TXN_LINE_RX` lives in `constants.py`,
which is absent from the sources.  Per the spec the credit-card grammar is
the fixed shape `trans_date post_date reference(8+ digits) description
amount`; returns the five captured groups. -/
def ccMatchLine (line : List Char) :
    Option (List Char × List Char × List Char × List Char × List Char) :=
  match splitWs line with
  | t :: p :: r :: restTokens =>
    if isDateToken t && isDateToken p && decide (8 ≤ r.length) && r.all isDigitCh &&
        decide (2 ≤ restTokens.length) then
      match restTokens.getLast? with
      | some amt =>
        if isAmountToken amt then
          some (t, p, r, joinWs restTokens.dropLast, amt)
        else none
      | none => none
    else none
  | _ => none

/-- `pdf_parser.parse_line_credit` (lines 147-194). -/
def parseLineCredit (line : List Char) (defaultYear : Option Nat)
    (accountName accountNumber accountType : Option (List Char))
    (dateOrder : Option (List Char)) : Option Rec :=
  match ccMatchLine line with
  | none => none
  | some (tdateRaw, pdateRaw, ref, rest, amountRaw) =>
    match normalizeNumber amountRaw with
    | none => none
    | some amount =>
      let desc := pyStrip rest
      let descUp := toUpperL desc
      let paymentHit := ccPaymentStrict descUp || wbSearch "PMT".toList descUp
      let creditHit := CC_CREDIT_KEYWORDS.any (fun k => containsSub k descUp)
      let signedAmount := if paymentHit || creditHit then |amount| else -|amount|
      some
        { date := parseDate tdateRaw defaultYear dateOrder
          date_raw := tdateRaw
          post_date := some (parseDate pdateRaw defaultYear dateOrder)
          description := desc ++ " REF:".toList ++ ref
          amount := some signedAmount
          debit := if signedAmount < 0 then some |signedAmount| else none
          credit := if signedAmount > 0 then some signedAmount else none
          balance := none
          account_name := accountName
          account_number := accountNumber
          account_type := some (match accountType with
            | some t => t
            | none => "credit_card".toList)
          line_type := "transaction".toList
          raw_line := line
          page := 0
          raw_line_index := 0 }

/-- The test `re.search(r"[().-]", tok) or "." in tok` used by the
reference-number folding heuristics (pdf_parser.py lines 454-455, 484). -/
def looksMoneyTok (t : List Char) : Bool :=
  t.any (fun c => c = '(' || c = ')' || c = '.' || c = '-')

/-- The trailing-token pop loop (pdf_parser.py lines 416-419): pop up to
`n` amount-shaped tokens off the reversed token list, stopping at the
first non-amount token; returns (reversed remaining, popped in original
order). -/
def popAmountsAux : Nat → List (List Char) → List (List Char) × List (List Char)
  | _, [] => ([], [])
  | 0, rev => (rev, [])
  | n + 1, t :: rest =>
    if isAmountToken t then
      let (rem, tr) := popAmountsAux n rest
      (rem, tr ++ [t])
    else (t :: rest, [])

def popTrailing (n : Nat) (tokens : List (List Char)) :
    List (List Char) × List (List Char) :=
  let (remRev, trailing) := popAmountsAux n tokens.reverse
  (remRev.reverse, trailing)

/-- The body of the standard grammar after the marker branch
(pdf_parser.py lines 447-510): compute the final description, amount,
balance, debit and credit from the trailing amount-shaped tokens. -/
def txnFields (description : List Char) (trailing : List (List Char)) :
    List Char × Option ℚ × Option ℚ × Option ℚ × Option ℚ :=
  let step1 : List Char × List (List Char) :=
    match trailing with
    | [t0, t1, t2] =>
      if allDigits t0 && decide (5 ≤ t0.length) && !(t0.contains '.') &&
          ([t1, t2].any looksMoneyTok) then
        (description ++ ' ' :: t0, [t1, t2])
      else (description, [t0, t1, t2])
    | tr => (description, tr)
  let desc1 := step1.1
  match step1.2 with
  | [ta, tb, tc] =>
    (match normalizeNumber ta, normalizeNumber tb, normalizeNumber tc with
     | some x, some y, some z =>
       if (x < 0 ∧ 0 < y) ∨ (y < 0 ∧ 0 < x) then
         let debit := if x < 0 then some |x| else if y < 0 then some |y| else none
         let credit := if x > 0 then some x else if y > 0 then some y else none
         (desc1, some ((credit.getD 0) - (debit.getD 0)), some z, debit, credit)
       else (desc1, some x, some z, none, none)
     | some x, none, some z => (desc1, some x, some z, none, none)
     | _, _, _ => (desc1, none, none, none, none))
  | [t0, t1] =>
    let looksRef := allDigits t0 && decide (5 ≤ t0.length) && !(t0.contains '.')
    if looksRef && looksMoneyTok t1 then
      let desc2 := desc1 ++ ' ' :: t0
      (match normalizeNumber t1 with
       | some x =>
         if !(allDigits t1 && decide (8 < t1.length)) then (desc2, some x, none, none, none)
         else (desc2, none, none, none, none)
       | none => (desc2, none, none, none, none))
    else
      (match normalizeNumber t0, normalizeNumber t1 with
       | some x, some y =>
         if |x| ≤ |y| ∨ (t1.contains ',' ∧ ¬(t0.contains ',' = true)) then
           (desc1, some x, some y, none, none)
         else (desc1, some x, none, none, none)
       | some x, none => (desc1, some x, none, none, none)
       | none, some y => (desc1, some y, none, none, none)
       | none, none => (desc1, none, none, none, none))
  | [t0] =>
    (match normalizeNumber t0 with
     | some x =>
       if !(allDigits t0 && decide (8 < t0.length)) then (desc1, some x, none, none, none)
       else if t0.isEmpty then (desc1, none, none, none, none)
       else (desc1 ++ ' ' :: t0, none, none, none, none)
     | none =>
       if t0.isEmpty then (desc1, none, none, none, none)
       else (desc1 ++ ' ' :: t0, none, none, none, none))
  | _ => (desc1, none, none, none, none)

/-- Debit/credit derivation from the amount sign (pdf_parser.py lines
512-516). -/
def deriveDebitCredit (amount debit credit : Option ℚ) : Option ℚ × Option ℚ :=
  match amount, debit, credit with
  | some a, none, none =>
    if a < 0 then (some (-a), none)
    else if a > 0 then (none, some a)
    else (none, none)
  | _, d, c => (d, c)

/-- Final construction of a standard-grammar transaction record, with the
grammar-false-positive guard (pdf_parser.py lines 512-536): a candidate in
which amount, balance, debit and credit are all `None` is discarded. -/
def buildTxnRec (line dateRaw desc : List Char) (amount balance debit0 credit0 : Option ℚ)
    (defaultYear : Option Nat) (accountName accountNumber accountType : Option (List Char))
    (dateOrder : Option (List Char)) : Option Rec :=
  let dc := deriveDebitCredit amount debit0 credit0
  if amount.isNone && balance.isNone && dc.1.isNone && dc.2.isNone then none
  else
    some
      { date := parseDate dateRaw defaultYear dateOrder
        date_raw := dateRaw
        post_date := none
        description := desc
        amount := amount
        debit := dc.1
        credit := dc.2
        balance := balance
        account_name := accountName
        account_number := accountNumber
        account_type := accountType
        line_type := "transaction".toList
        raw_line := line
        page := 0
        raw_line_index := 0 }

/-- `pdf_parser.parse_line` (lines 399-536): the standard grammar. -/
def parseLine (line : List Char) (defaultYear : Option Nat)
    (accountName accountNumber accountType : Option (List Char))
    (dateOrder : Option (List Char)) : Option Rec :=
  match dateStartMatch line with
  | none => none
  | some (dateRaw, rest0) =>
    let tokens0 := splitWs (pyStrip rest0)
    if tokens0.isEmpty then none
    else
      let pt := popTrailing 3 tokens0
      let description := joinWs pt.1
      if description.isEmpty then none
      else if description = "Beginning Balance".toList ∨
          description = "Ending Balance".toList then
        let balVal :=
          match pt.2 with
          | [t] => normalizeNumber t
          | [] => none
          | ts => match ts.getLast? with
            | some t => normalizeNumber t
            | none => none
        some
          { date := parseDate dateRaw defaultYear dateOrder
            date_raw := dateRaw
            post_date := none
            description := description
            amount := none
            debit := none
            credit := none
            balance := balVal
            account_name := accountName
            account_number := accountNumber
            account_type := accountType
            line_type := "marker".toList
            raw_line := line
            page := 0
            raw_line_index := 0 }
      else
        let f := txnFields description pt.2
        buildTxnRec line dateRaw f.1 f.2.1 f.2.2.1 f.2.2.2.1 f.2.2.2.2
          defaultYear accountName accountNumber accountType dateOrder

/-- `pdf_parser.parse_line_date_amount_desc` (lines 539-577). -/
def parseLineDateAmountDesc (line : List Char) (defaultYear : Option Nat)
    (accountName accountNumber accountType : Option (List Char))
    (dateOrder : Option (List Char)) (sectionSign : Option Int) : Option Rec :=
  match splitWs line with
  | t0 :: t1 :: rest =>
    if rest.isEmpty then none
    else if !hasDatePrefix t0 then none
    else if !isAmountToken t1 then none
    else
      match normalizeNumber t1 with
      | none => none
      | some amount =>
        let description := joinWs rest
        if description.isEmpty then none
        else
          let signedAmount := inferSignedAmount amount description sectionSign
          some
            { date := parseDate t0 defaultYear dateOrder
              date_raw := t0
              post_date := none
              description := description
              amount := some signedAmount
              debit := if signedAmount < 0 then some |signedAmount| else none
              credit := if signedAmount > 0 then some signedAmount else none
              balance := none
              account_name := accountName
              account_number := accountNumber
              account_type := accountType
              line_type := "transaction".toList
              raw_line := line
              page := 0
              raw_line_index := 0 }
  | _ => none

/-- `pdf_parser.parse_line_date_desc_amount_balance` (lines 580-623). -/
def parseLineDateDescAmountBalance (line : List Char) (defaultYear : Option Nat)
    (accountName accountNumber accountType : Option (List Char))
    (dateOrder : Option (List Char)) (sectionSign : Option Int) : Option Rec :=
  let tokens := splitWs line
  if decide (tokens.length < 4) then none
  else
    match tokens.head? with
    | none => none
    | some t0 =>
      if !hasDatePrefix t0 then none
      else
        let pt := popTrailing 3 tokens
        match pt.2 with
        | [ta, tb] =>
          match normalizeNumber ta, normalizeNumber tb with
          | some amount, some balance =>
            let description := joinWs (pt.1.drop 1)
            if description.isEmpty then none
            else
              let signedAmount := inferSignedAmount amount description sectionSign
              some
                { date := parseDate t0 defaultYear dateOrder
                  date_raw := t0
                  post_date := none
                  description := description
                  amount := some signedAmount
                  debit := if signedAmount < 0 then some |signedAmount| else none
                  credit := if signedAmount > 0 then some signedAmount else none
                  balance := some balance
                  account_name := accountName
                  account_number := accountNumber
                  account_type := accountType
                  line_type := "transaction".toList
                  raw_line := line
                  page := 0
                  raw_line_index := 0 }
          | _, _ => none
        | _ => none

/-- `pdf_parser.parse_line_date_desc_debit_credit_balance` (lines 626-684). -/
def parseLineDateDescDebitCreditBalance (line : List Char) (defaultYear : Option Nat)
    (accountName accountNumber accountType : Option (List Char))
    (dateOrder : Option (List Char)) (sectionSign : Option Int) : Option Rec :=
  let tokens := splitWs line
  if decide (tokens.length < 4) then none
  else
    match tokens.head? with
    | none => none
    | some t0 =>
      if !hasDatePrefix t0 then none
      else
        let pt := popTrailing 4 tokens
        if decide (pt.2.length < 2) then none
        else
          let description := joinWs (pt.1.drop 1)
          if description.isEmpty then none
          else
            match pt.2.getLast? with
            | none => none
            | some tBal =>
              match normalizeNumber tBal with
              | none => none
              | some balance =>
                if decide (3 ≤ pt.2.length) then
                  let rev := pt.2.reverse
                  let debitRaw := (rev.drop 2).head?.bind normalizeNumber
                  let creditRaw := (rev.drop 1).head?.bind normalizeNumber
                  if debitRaw.isNone && creditRaw.isNone then none
                  else
                    let debit := debitRaw.map (fun x => |x|)
                    let credit := creditRaw.map (fun x => |x|)
                    let signedAmount := (credit.getD 0) - (debit.getD 0)
                    some
                      { date := parseDate t0 defaultYear dateOrder
                        date_raw := t0
                        post_date := none
                        description := description
                        amount := some signedAmount
                        debit := debit
                        credit := credit
                        balance := some balance
                        account_name := accountName
                        account_number := accountNumber
                        account_type := accountType
                        line_type := "transaction".toList
                        raw_line := line
                        page := 0
                        raw_line_index := 0 }
                else
                  match pt.2.head?.bind normalizeNumber with
                  | none => none
                  | some amount =>
                    let signedAmount := inferSignedAmount amount description sectionSign
                    some
                      { date := parseDate t0 defaultYear dateOrder
                        date_raw := t0
                        post_date := none
                        description := description
                        amount := some signedAmount
                        debit := if signedAmount < 0 then some |signedAmount| else none
                        credit := if signedAmount > 0 then some signedAmount else none
                        balance := some balance
                        account_name := accountName
                        account_number := accountNumber
                        account_type := accountType
                        line_type := "transaction".toList
                        raw_line := line
                        page := 0
                        raw_line_index := 0 }

/-- Lowercase one ASCII character (Python `str.lower()`). -/
def lowChar (c : Char) : Char :=
  if 'A' ≤ c ∧ c ≤ 'Z' then Char.ofNat (c.toNat + 32) else c

def toLowerL (l : List Char) : List Char :=
  l.map lowChar

/-- Python re.sub of runs of characters failing `ok` by a single space
(carrying whether the previous character was part of such a run). -/
def subRunsAux (ok : Char → Bool) : Bool → List Char → List Char
  | _, [] => []
  | lastBad, c :: xs =>
    if ok c then c :: subRunsAux ok false xs
    else if lastBad then subRunsAux ok true xs
    else ' ' :: subRunsAux ok true xs

/-- Replace every maximal run of characters failing `ok` by one space. -/
def subRuns (ok : Char → Bool) (l : List Char) : List Char :=
  subRunsAux ok false l

/-- `pdf_parser.classify_account` (lines 100-124): normalize an account
name to "checking" or "savings". -/
def classifyAccount (name : Option (List Char)) : Option (List Char) :=
  match name with
  | none => none
  | some nm =>
    if nm.isEmpty then none
    else
      let n := pyStrip (toLowerL nm)
      let nNorm := subRuns
        (fun c => ('a' ≤ c && c ≤ 'z') || isDigitCh c || c = ' ') n
      if containsSub "checking".toList nNorm || wbSearch "chk".toList nNorm ||
          containsSub "share draft".toList nNorm || wbSearch "draft".toList nNorm then
        some "checking".toList
      else some "savings".toList

/-- SECTION_CREDIT_RX (pdf_parser.py lines 47-50): word-boundary search of
the credit-section vocabulary, case-insensitive; a `?` branch allows an
optional plural S. -/
def sectionCreditHit (line : List Char) : Bool :=
  let up := toUpperL line
  let opt := fun (p : String) => wbSearch p.toList up || wbSearch (p.toList ++ ['S']) up
  opt "DEPOSIT" || opt "CREDIT" || wbSearch "OTHER ADDITIONS".toList up ||
    wbSearch "OTHER CREDITS".toList up || wbSearch "ADDITIONS".toList up ||
    wbSearch "PAYMENTS AND CREDITS".toList up || wbSearch "INTEREST".toList up

/-- SECTION_DEBIT_RX (pdf_parser.py lines 51-54). -/
def sectionDebitHit (line : List Char) : Bool :=
  let up := toUpperL line
  let opt := fun (p : String) => wbSearch p.toList up || wbSearch (p.toList ++ ['S']) up
  opt "WITHDRAWAL" || opt "DEBIT" || wbSearch "DEDUCTIONS".toList up ||
    wbSearch "OTHER DEDUCTIONS".toList up || wbSearch "OTHER DEBITS".toList up ||
    opt "CHECK" || wbSearch "FEES".toList up || wbSearch "SERVICE CHARGES".toList up ||
    wbSearch "PAYMENTS".toList up

/-- SECTION_HEADER_HINT_RX (pdf_parser.py lines 90-92). -/
def sectionHeaderHint (line : List Char) : Bool :=
  let up := toUpperL line
  wbSearch "THERE WERE".toList up || wbSearch "THERE WAS".toList up ||
    wbSearch "TOTALING".toList up

/-- `pdf_parser.is_section_header` (lines 372-375). -/
def isSectionHeader (line : List Char) : Bool :=
  if hasDatePrefix line then false else sectionHeaderHint line

/-- Uppercased whitespace tokens of a line, for the anchored table-header
regexes `^Date\s+...$` (which, on these space-normalized lines, match
exactly when the token sequence matches and the line has no surrounding
whitespace). -/
def upperTokens (line : List Char) : List (List Char) :=
  (splitWs line).map toUpperL

def isDateAmountDescHeader (line : List Char) : Bool :=
  pyStrip line = line &&
    upperTokens line = ["DATE", "AMOUNT", "DESCRIPTION"].map String.toList

def isDateDescAmountBalHeader (line : List Char) : Bool :=
  pyStrip line = line &&
    (upperTokens line = ["DATE", "DESCRIPTION", "AMOUNT"].map String.toList ||
     upperTokens line = ["DATE", "DESCRIPTION", "AMOUNT", "BALANCE"].map String.toList)

def isDateDescDebitCreditBalHeader (line : List Char) : Bool :=
  pyStrip line = line &&
    (match upperTokens line with
     | [d, ds, deb, cred, bal] =>
       d = "DATE".toList && ds = "DESCRIPTION".toList &&
         (["DEBIT", "DEBITS", "WITHDRAWAL", "WITHDRAWALS"].map String.toList).contains deb &&
         (["CREDIT", "CREDITS", "DEPOSIT", "DEPOSITS"].map String.toList).contains cred &&
         bal = "BALANCE".toList
     | _ => false)

def isDateDescBalHeader (line : List Char) : Bool :=
  pyStrip line = line &&
    upperTokens line = ["DATE", "DESCRIPTION", "BALANCE"].map String.toList

/-- `pdf_parser.is_table_header` (lines 363-369). -/
def isTableHeader (line : List Char) : Bool :=
  isDateDescDebitCreditBalHeader line || isDateDescAmountBalHeader line ||
    isDateAmountDescHeader line || isDateDescBalHeader line

/-- DAILY_BALANCE_RX search (pdf_parser.py line 64). -/
def dailyBalanceHit (line : List Char) : Bool :=
  wbSearch "DAILY BALANCE".toList (toUpperL line)

/-- ACCOUNT_NUMBER_LABEL_RX search (pdf_parser.py lines 41-43): find an
"Account number:" label (case-insensitive) followed by a nonempty run of
digits and hyphens, and return that run. -/
def accountNumberLabel : List Char → Option (List Char)
  | [] => none
  | c :: xs =>
    let here :=
      if "ACCOUNT NUMBER:".toList.isPrefixOf (toUpperL (c :: xs)) then
        let after := ((c :: xs).drop 15).dropWhile isWsChar
        let capture := after.takeWhile (fun d => isDigitCh d || d = '-')
        if capture.isEmpty then none else some capture
      else none
    match here with
    | some cap => some cap
    | none => accountNumberLabel xs

/-- ACCOUNT_SUMMARY_NAME_RX match (pdf_parser.py lines 44-46): the line
ends with "Account Summary" (case-insensitive) preceded by whitespace and
a nonempty name; returns the name. -/
def accountSummaryName (line : List Char) : Option (List Char) :=
  let n := line.length
  if decide (n < 17) then none
  else if toUpperL (line.drop (n - 15)) = "ACCOUNT SUMMARY".toList then
    let pre := line.take (n - 15)
    match pre.getLast? with
    | some c =>
      if isWsChar c then
        let nameTok := (pre.reverse.dropWhile isWsChar).reverse
        if nameTok.isEmpty then none else some nameTok
      else none
    | none => none
  else none

/-- Modelled from the spec: `ACCOUNT_HEADER_RX` and
`ACCOUNT_HEADER_INLINE_RX` live in `constants.py`, which is absent from
the sources.  Per the spec an account header carries the pattern
`Name - Number`; modelled as the first occurrence of " - " followed by a
run of at least four digits ending at a non-digit or the end of the line,
preceded by a nonempty name. -/
def accountHeaderSearch : List Char → Option (List Char × List Char)
  | [] => none
  | c :: xs =>
    let here :=
      if " - ".toList.isPrefixOf (c :: xs) then
        let after := (c :: xs).drop 3
        let num := after.takeWhile isDigitCh
        if decide (4 ≤ num.length) &&
            (match (after.drop num.length).head? with
             | none => true
             | some d => !isDigitCh d) then
          some num
        else none
      else none
    match here with
    | some num => some ([], num)
    | none =>
      match accountHeaderSearch xs with
      | some (nm, num) => some (c :: nm, num)
      | none => none

/-- The account-header name/number pair of a line, when present; the name
part must be nonempty (the source regex group). -/
def accountHeaderHit (line : List Char) : Option (List Char × List Char) :=
  match accountHeaderSearch line with
  | some (nm, num) => if nm.isEmpty then none else some (nm, num)
  | none => none

/-- Modelled from the spec: `DATE_RANGE_RX` lives in `constants.py`, which
is absent from the sources.  Per the spec it recognizes bare
statement-period range lines: a date token, a hyphen (with optional
spaces), and a second date token, at the start of the line. -/
def dateRangeMatch (line : List Char) : Bool :=
  match dateStartMatch line with
  | none => false
  | some (_, rest) =>
    let r1 := rest.dropWhile isWsChar
    match r1 with
    | '-' :: r2 => (dateStartMatch (r2.dropWhile isWsChar)).isSome
    | _ => false

/-- A full date token carrying a year: 1-2 digits, separator, 1-2 digits,
separator, then a 2- or 4-digit year group.  Returns the year digits and
the rest of the input.  Modelled from the spec: `YEAR_IN_RANGE_RX` lives
in `constants.py`, which is absent from the sources; per the spec it
collects the year group of MM/DD/YY[YY]-shaped occurrences. -/
def fullDateYear (l : List Char) : Option (List Char × List Char) :=
  match dateStartMatch l with
  | some (tok, rest) =>
    match splitSeps tok with
    | [_, _, y] => if y.length = 2 || y.length = 4 then some (y, rest) else none
    | _ => none
  | none => none

/-- All year groups of full-date occurrences in a line (`finditer`,
left-to-right, non-overlapping), driven by a fuel argument. -/
def scanYearsAux : Nat → List Char → List (List Char)
  | 0, _ => []
  | _ + 1, [] => []
  | fuel + 1, c :: xs =>
    match fullDateYear (c :: xs) with
    | some (y, rest) => y :: scanYearsAux fuel rest
    | none => scanYearsAux fuel xs

def scanYears (l : List Char) : List (List Char) :=
  scanYearsAux l.length l

/-- Modelled from the spec: `STATEMENT_PERIOD_RX` lives in `constants.py`,
which is absent from the sources.  Per the spec it matches statement-period
ranges — two full dates separated by a hyphen — capturing both years. -/
def statementPeriodHere (l : List Char) : Option (List Char × List Char × List Char) :=
  match fullDateYear l with
  | some (y1, rest) =>
    let r1 := rest.dropWhile isWsChar
    match r1 with
    | '-' :: r2 =>
      match fullDateYear (r2.dropWhile isWsChar) with
      | some (y2, rest2) => some (y1, y2, rest2)
      | none => none
    | _ => none
  | none => none

def scanPeriodsAux : Nat → List Char → List (List Char × List Char)
  | 0, _ => []
  | _ + 1, [] => []
  | fuel + 1, c :: xs =>
    match statementPeriodHere (c :: xs) with
    | some (y1, y2, rest) => (y1, y2) :: scanPeriodsAux fuel rest
    | none => scanPeriodsAux fuel xs

def scanPeriods (l : List Char) : List (List Char × List Char) :=
  scanPeriodsAux l.length l

/-- Two-digit years expand with a "20" prefix (pdf_parser.py line 203). -/
def expandYear (y : List Char) : Nat :=
  if y.length = 2 then parseNatDigits ('2' :: '0' :: y) else parseNatDigits y

/-- `Counter.most_common(1)`: the value with the highest count, ties broken
by first occurrence in the list. -/
def mostCommonFirst (l : List Nat) : Option Nat :=
  let counts := (l.eraseDups).map (fun y => (y, l.count y))
  counts.foldl
    (fun best p =>
      match best with
      | none => some p
      | some q => if p.2 > q.2 then some p else some q)
    none |>.map (fun p => p.1)

/-- `pdf_parser.infer_year` (lines 197-221). -/
def inferYear (allLines : List (List Char)) : Option Nat :=
  let years := (allLines.flatMap scanYears).map expandYear
  let periodYears := (allLines.flatMap scanPeriods).flatMap
    (fun p => [expandYear p.1, expandYear p.2])
  if years.isEmpty then none
  else
    let distinct := years.eraseDups
    let fallback := mostCommonFirst years
    if distinct.length = 2 then
      match distinct.min?, distinct.max? with
      | some lo, some hi =>
        if hi - lo = 1 ∧ ¬periodYears.isEmpty then
          let cands := (periodYears.eraseDups).filter (fun y => years.contains y)
          let best := cands.foldl
            (fun best y =>
              match best with
              | none => some (y, years.count y)
              | some q => if years.count y > q.2 then some (y, years.count y) else some q)
            none
          match best with
          | some p => some p.1
          | none => fallback
        else fallback
      | _, _ => fallback
    else fallback

/-- `pdf_parser.infer_date_order` (lines 981-1008). -/
def inferDateOrderAux : List (List Char) → Bool → Bool → Option (List Char)
  | [], dmFlag, mdFlag =>
    if dmFlag ∧ ¬mdFlag then some "DM".toList
    else if mdFlag ∧ ¬dmFlag then some "MD".toList
    else none
  | ln :: rest, dmFlag, mdFlag =>
    match dateStartMatch ln with
    | none => inferDateOrderAux rest dmFlag mdFlag
    | some (tok, _) =>
      match splitSeps tok with
      | [p1, p2] =>
        match parseIntPy p1, parseIntPy p2 with
        | some a, some b =>
          let dm := dmFlag ∨ (a > 12 ∧ b ≤ 12)
          let md := mdFlag ∨ (b > 12 ∧ a ≤ 12)
          if dm ∧ md then none
          else inferDateOrderAux rest dm md
        | _, _ => inferDateOrderAux rest dmFlag mdFlag
      | _ => inferDateOrderAux rest dmFlag mdFlag

def inferDateOrder (lines : List (List Char)) : Option (List Char) :=
  inferDateOrderAux (lines.take 400) false false

/-- `pdf_parser.detect_layout` (lines 350-360). -/
def detectLayoutAux : List (List Char) → List Char
  | [] => "standard".toList
  | ln :: rest =>
    if isDateDescDebitCreditBalHeader ln then "date_desc_debit_credit_balance".toList
    else if isDateDescAmountBalHeader ln then "date_desc_amount_balance".toList
    else if isDateAmountDescHeader ln then "date_amount_desc".toList
    else detectLayoutAux rest

def detectLayout (lines : List (List Char)) (creditCardMode : Bool) : List Char :=
  if creditCardMode then "credit_card".toList
  else detectLayoutAux (lines.take 300)

def TABLE_LAYOUTS : List (List Char) :=
  ["date_amount_desc", "date_desc_amount_balance",
   "date_desc_debit_credit_balance"].map String.toList

/-- Python `round(x, 2)` (round half to even) on the exact rationals that
model the float currency values. -/
def round2 (q : ℚ) : ℚ :=
  let x := 100 * q
  let f : ℤ := ⌊x⌋
  let r := x - (f : ℚ)
  (if r > 1/2 then (f + 1 : ℚ)
   else if r < 1/2 then (f : ℚ)
   else if f % 2 = 0 then (f : ℚ) else (f + 1 : ℚ)) / 100

/-- One entry of `compute_balance_mismatches` (pdf_parser.py lines
1031-1043). -/
structure Mismatch where
  index : Nat
  account_number : Option (List Char)
  date : DateVal
  description : List Char
  amount : ℚ
  prev_balance : ℚ
  expected_balance : ℚ
  provided_balance : ℚ
  delta : ℚ
deriving DecidableEq, Repr

/-- The inner loop of `compute_balance_mismatches` (pdf_parser.py lines
1019-1045) over one account-number group, carrying `last_balance`.

NaN semantics of the source: the DataFrame's monetary columns are float,
so a missing amount or balance is a float NaN, and Python's
`x is not None` is True for NaN.  Hence the marker update (lines
1021-1023) and the end-of-iteration update (lines 1044-1045) both always
fire, overwriting `last_balance` with the row's stored balance — a value
when stated, unknown (NaN) when missing — and `last_balance` is Python
`None` only before the first row of the group.  The tracker state is
therefore `Option (Option ℚ)`: the outer `none` is Python `None`, an
inner `none` is NaN.  A row is flagged only when its amount, its balance
and the tracked balance are all real numbers, because arithmetic with
NaN yields NaN and every NaN comparison is False.  (If a column holds no
real float at all, pandas keeps Python `None` in it; the flag condition
then fails through the `is not None` checks instead of through the NaN
comparison, producing the same mismatch list, so this encoding is
output-faithful in that case too.) -/
def mismatchStep (acct : Option (List Char)) (tol : ℚ) :
    Option (Option ℚ) → List (Nat × Rec) → List Mismatch
  | _, [] => []
  | lastBal, (idx, r) :: rest =>
    if r.line_type = "marker".toList then
      mismatchStep acct tol (some r.balance) rest
    else
      let entries : List Mismatch :=
        match r.amount, r.balance, lastBal with
        | some a, some b, some (some lb) =>
          let expected := round2 (lb + a)
          let provided := round2 b
          if |expected - provided| > tol then
            [⟨idx, acct, r.date, r.description, a, lb, expected, provided,
              round2 (provided - expected)⟩]
          else []
        | _, _, _ => []
      entries ++ mismatchStep acct tol (some r.balance) rest

/-- `pdf_parser.compute_balance_mismatches` (lines 1011-1046), taking the
already sorted-and-grouped rows (the pandas `sort_values` plus `groupby`
over `account_number`); each pair is one group with its key, each row
carries its original frame index. -/
def computeBalanceMismatches (groups : List (Option (List Char) × List (Nat × Rec)))
    (tol : ℚ) : List Mismatch :=
  groups.flatMap (fun g => mismatchStep g.1 tol none g.2)

/-- The tracked balance the walk carries at any point: every row —
marker or transaction — overwrites it with its own stored balance, so
before row `k` it is row `k-1`'s balance; `init` (Python `None` at the
start of a group) before the first row. -/
def lastTrackedBal : Option (Option ℚ) → List (Nat × Rec) → Option (Option ℚ)
  | init, [] => init
  | _, p :: rows => lastTrackedBal (some p.2.balance) rows

/-- The per-row flagging rule of the (amended) claim: given the tracked
balance, a transaction (non-marker) row with both amount and balance
present and a real tracked balance is flagged exactly when the rounded
expected and provided balances differ by more than the tolerance. -/
def rowEntry (acct : Option (List Char)) (tol : ℚ) (lb : Option (Option ℚ))
    (ir : Nat × Rec) : Option Mismatch :=
  if ir.2.line_type = "marker".toList then none
  else
    match ir.2.amount, ir.2.balance, lb with
    | some a, some b, some (some l) =>
      let expected := round2 (l + a)
      let provided := round2 b
      if |expected - provided| > tol then
        some ⟨ir.1, acct, ir.2.date, ir.2.description, a, l, expected, provided,
          round2 (provided - expected)⟩
      else none
    | _, _, _ => none

/-- The original claim's `last_balance` update rule — "updated by any
non-null balance, with marker rows always updating it" — stated here
only to be compared with the source's walk; the source instead
overwrites `last_balance` with every row's stored balance, NaN
included. -/
def claimUpdLastBal (lb : Option ℚ) (r : Rec) : Option ℚ :=
  match r.balance with
  | some b => some b
  | none => lb

/-- The original claim's tracker: fold a row sequence, updating only on
non-null balances. -/
def claimLastBalFrom (lb : Option ℚ) (rows : List (Nat × Rec)) : Option ℚ :=
  rows.foldl (fun acc p => claimUpdLastBal acc p.2) lb

/-- The original claim's per-row flagging rule, over its own tracker. -/
def claimRowEntry (acct : Option (List Char)) (tol : ℚ) (lb : Option ℚ)
    (ir : Nat × Rec) : Option Mismatch :=
  if ir.2.line_type = "marker".toList then none
  else
    match ir.2.amount, ir.2.balance, lb with
    | some a, some b, some l =>
      let expected := round2 (l + a)
      let provided := round2 b
      if |expected - provided| > tol then
        some ⟨ir.1, acct, ir.2.date, ir.2.description, a, l, expected, provided,
          round2 (provided - expected)⟩
      else none
    | _, _, _ => none

/-- The cumulative running balance `prev_bal + ordered["amount"].cumsum()`
(pdf_parser.py line 922).  pandas `cumsum` defaults to `skipna=True`: a
missing amount (float NaN) leaves NaN at its own position — modelled by
`none` — while accumulation continues over the later present amounts. -/
def cumsumAmountsGo : ℚ → List Rec → List (Option ℚ)
  | _, [] => []
  | acc, r :: rest =>
    match r.amount with
    | some a => some (acc + a) :: cumsumAmountsGo (acc + a) rest
    | none => none :: cumsumAmountsGo acc rest

def cumsumAmounts (prevBal : ℚ) (recs : List Rec) : List (Option ℚ) :=
  cumsumAmountsGo prevBal recs

/-- The credit-card synthetic-balance commit (pdf_parser.py lines
918-925), acting on the chronologically ordered records: compute the
running balance seeded at the previous balance and assign it to the
balance column only when the final value matches the new balance within
0.05; otherwise leave the records unchanged.  The assignment writes the
whole running series, including the NaN left at each missing-amount
position, over whatever balance the row held; a NaN final value never
matches (every NaN comparison is False).  (On an empty frame the source
raises `IndexError` into the enclosing `except ... pass`, which also
leaves the frame unchanged.) -/
def ccApplySyntheticBalance (prevBal newBal : ℚ) (ordered : List Rec) : List Rec :=
  let running := cumsumAmounts prevBal ordered
  match running.getLast? with
  | some (some lastVal) =>
    if |lastVal - newBal| < 1/20 then
      (ordered.zip running).map (fun p => { p.1 with balance := p.2 })
    else ordered
  | _ => ordered

/-- Sum of the amounts that are present in a record list (the skip-NaN
sum pandas accumulates). -/
def presentSum (recs : List Rec) : ℚ :=
  (recs.filterMap Rec.amount).sum

/-- The spec-side description of the running balance, stated by position:
entry `k` is the seed plus the sum of the amounts present among the first
`k+1` records when record `k` has an amount, and unknown when record
`k`'s amount is missing. -/
def specRunning (c : ℚ) (l : List Rec) : List (Option ℚ) :=
  (List.range l.length).map (fun k =>
    ((l.get? k).bind Rec.amount).map (fun _ => c + presentSum (l.take (k + 1))))

/-- The document as seen through the external PDF-extraction collaborator
(out of scope per the spec): `pages` holds the physical text lines of each
page in plain-text mode; `wordPages` holds the per-page line texts
produced by the collaborator's word-box clustering in word mode (the
geometry itself belongs to the collaborator). -/
structure PdfDoc where
  pages : List (List (List Char))
  wordPages : List (List (List Char))

/-- `pdf_parser._normalize_space` (lines 256-257): NBSP to space, collapse
space-and-tab runs, strip. -/
def normalizeSpace (s : List Char) : List Char :=
  pyStrip (subRuns (fun c => !(c = ' ' || c = '\t'))
    (s.map (fun c => if c = ' ' then ' ' else c)))

/-- Anchored "Page N of M" boilerplate. -/
def pageOfMatch (ln : List Char) : Bool :=
  if "Page ".toList.isPrefixOf ln then
    let a := ln.drop 5
    let d1 := a.takeWhile isDigitCh
    if d1.isEmpty then false
    else
      let b := a.drop d1.length
      if " of ".toList.isPrefixOf b then
        !((b.drop 4).takeWhile isDigitCh).isEmpty
      else false
  else false

/-- Modelled from the spec: `HEADER_FOOTER_PATTERNS_RX` lives in
`constants.py`, which is absent from the sources.  Per the spec the
boilerplate dropped is "Page N of M", "Statement Period" and
"Statement of Account" lines, matched at the start of the line. -/
def hfMatch (ln : List Char) : Bool :=
  pageOfMatch ln || "Statement Period".toList.isPrefixOf ln ||
    "Statement of Account".toList.isPrefixOf ln

/-- The per-page line cleaning of `extract_raw_lines` (lines 271-311):
normalize whitespace, drop empty and boilerplate lines, stamp 1-based page
numbers. -/
def cleanLines (dropHeaderFooter : Bool) (pages : List (List (List Char))) :
    List (Nat × List Char) :=
  pages.enum.flatMap
    (fun pp =>
      pp.2.filterMap (fun raw =>
        let sNorm := normalizeSpace raw
        if sNorm.isEmpty || (dropHeaderFooter && hfMatch sNorm) then none
        else some (pp.1 + 1, sNorm)))

/-- The wrapped-continuation merge of `extract_raw_lines` (lines 315-336):
two consecutive same-page lines merge when neither starts with a date
prefix nor contains an account-header pattern. -/
def mergeAux : List (Nat × List Char) → List (Nat × List Char) → List (Nat × List Char)
  | mergedRev, [] => mergedRev.reverse
  | [], pl :: rest => mergeAux [pl] rest
  | (ppg, pt) :: mrest, (pg, t) :: rest =>
    if pg = ppg ∧ ¬hasDatePrefix pt ∧ ¬hasDatePrefix t ∧
        (accountHeaderSearch pt).isNone ∧ (accountHeaderSearch t).isNone then
      mergeAux ((ppg, pt ++ ' ' :: t) :: mrest) rest
    else mergeAux ((pg, t) :: (ppg, pt) :: mrest) rest

/-- `pdf_parser.extract_raw_lines` (lines 260-338).  The document read
that can raise in the source (`pdfplumber.open`) is the `Except` input;
the `except Exception` handler at lines 312-313 turns any such failure
into an empty list. -/
def extractRawLines (pdfFile : Except Unit PdfDoc) (wordsMode mergeWrapped dropHeaderFooter : Bool) :
    List (Nat × List Char) :=
  match pdfFile with
  | .error _ => []
  | .ok doc =>
    let lines := cleanLines dropHeaderFooter (if wordsMode then doc.wordPages else doc.pages)
    if mergeWrapped && !lines.isEmpty then mergeAux [] lines else lines

/-- The first part of a line before its first occurrence of `pat`
(Python `line.split(pat, 1)[0]`). -/
def takeBeforeSub (pat : List Char) : List Char → List Char
  | [] => []
  | c :: xs => if pat.isPrefixOf (c :: xs) then [] else c :: takeBeforeSub pat xs

/-- The walker state of `parse_bank_statement` (lines 708-715).  Rows and
unparsed lines are accumulated in reverse. -/
structure WalkSt where
  rowsRev : List Rec
  unparsedRev : List (List Char)
  accName : Option (List Char)
  accNum : Option (List Char)
  accType : Option (List Char)
  sectionSign : Option Int
  lastKind : Option (List Char)
  dailyBal : Bool
  layout : List Char
  rawIndex : Nat

def appendToLast (rowsRev : List Rec) (extra : List Char) : List Rec :=
  match rowsRev with
  | [] => []
  | r :: rest =>
    { r with description := pyStrip (r.description ++ ' ' :: extra)
             raw_line := r.raw_line ++ ' ' :: extra } :: rest

/-- One iteration of the walker loop of `parse_bank_statement`
(lines 717-856). -/
def walkLine (ccMode : Bool) (defaultYear : Option Nat) (dateOrder : Option (List Char))
    (st : WalkSt) (pl : Nat × List Char) : WalkSt :=
  let pg := pl.1
  let line := pl.2
  let st :=
    match accountHeaderHit line with
    | some (nm, num) =>
      { st with accName := some (pyStrip nm), accNum := some num
                accType := classifyAccount (some (pyStrip nm)), dailyBal := false }
    | none => st
  let st :=
    match accountNumberLabel line with
    | some cap =>
      let digits := cap.filter isDigitCh
      { st with accNum := some (if digits.isEmpty then cap else digits) }
    | none => st
  let st :=
    match accountSummaryName line with
    | some nm =>
      if st.accName = none ∨ st.accName = some [] then
        { st with accName := some (pyStrip nm), accType := classifyAccount (some (pyStrip nm)) }
      else st
    | none => st
  let st :=
    if isSectionHeader line then
      let ch := sectionCreditHit line
      let dh := sectionDebitHit line
      if ch ∧ dh then { st with sectionSign := none }
      else if ch then { st with sectionSign := some 1, dailyBal := false }
      else if dh then { st with sectionSign := some (-1), dailyBal := false }
      else st
    else st
  if isDateDescDebitCreditBalHeader line then
    { st with layout := "date_desc_debit_credit_balance".toList, dailyBal := false }
  else if isDateDescAmountBalHeader line then
    { st with layout := "date_desc_amount_balance".toList, dailyBal := false }
  else if isDateAmountDescHeader line then
    { st with layout := "date_amount_desc".toList, dailyBal := false }
  else if containsSub "Average Daily Balance".toList line then st
  else if dailyBalanceHit line then
    if ¬ccMode then
      let st1 :=
        if st.lastKind = some "table".toList ∧ containsSub "Daily Balance".toList line then
          let pre := pyStrip (takeBeforeSub "Daily Balance".toList line)
          if ¬pre.isEmpty ∧ ¬st.rowsRev.isEmpty then
            { st with rowsRev := appendToLast st.rowsRev pre }
          else st
        else st
      { st1 with dailyBal := true, lastKind := none }
    else st
  else if dateRangeMatch line then st
  else if isTableHeader line then st
  else if st.dailyBal then st
  else
    let tryCC :=
      if ccMode then
        parseLineCredit line defaultYear st.accName st.accNum
          (some (match st.accType with
            | some t => t
            | none => "credit_card".toList)) dateOrder
      else none
    let s1 : Option Rec × Option (List Char) :=
      match tryCC with
      | some r => (some r, some "credit".toList)
      | none => (none, st.lastKind)
    let s2 : Option Rec × List Char :=
      match s1.1 with
      | some r => (some r, st.layout)
      | none =>
        match parseLineDateAmountDesc line defaultYear st.accName st.accNum st.accType
            dateOrder st.sectionSign with
        | some r =>
          (some r, if TABLE_LAYOUTS.contains st.layout then st.layout
                   else "date_amount_desc".toList)
        | none => (none, st.layout)
    let rec3 : Option Rec :=
      match s2.1 with
      | some r => some r
      | none =>
        if s2.2 = "date_desc_amount_balance".toList then
          parseLineDateDescAmountBalance line defaultYear st.accName st.accNum st.accType
            dateOrder st.sectionSign
        else none
    let rec4 : Option Rec :=
      match rec3 with
      | some r => some r
      | none =>
        if s2.2 = "date_desc_debit_credit_balance".toList then
          parseLineDateDescDebitCreditBalance line defaultYear st.accName st.accNum st.accType
            dateOrder st.sectionSign
        else none
    let lastKind2 :=
      if rec4.isSome && TABLE_LAYOUTS.contains s2.2 then some "table".toList else s1.2
    let s5 : Option Rec × Option (List Char) :=
      match rec4 with
      | some r => (some r, lastKind2)
      | none =>
        match parseLine line defaultYear st.accName st.accNum st.accType dateOrder with
        | some r => (some r, some "standard".toList)
        | none => (none, lastKind2)
    match s5.1 with
    | some r =>
      { st with rowsRev := { r with page := pg, raw_line_index := st.rawIndex } :: st.rowsRev
                rawIndex := st.rawIndex + 1
                lastKind := s5.2
                layout := s2.2 }
    | none =>
      let stF := { st with lastKind := s5.2, layout := s2.2 }
      if stF.lastKind = some "table".toList ∧ ¬stF.dailyBal then
        if ¬hasDatePrefix line ∧ ¬dateRangeMatch line ∧ ¬isTableHeader line ∧
            ¬sectionCreditHit line ∧ ¬sectionDebitHit line ∧
            (accountHeaderSearch line).isNone ∧ ¬dailyBalanceHit line then
          { stF with rowsRev := appendToLast stF.rowsRev line }
        else if hasDatePrefix line then
          { stF with unparsedRev :=
              (("[p" ++ toString pg ++ "] ").toList ++ line) :: stF.unparsedRev }
        else stF
      else if hasDatePrefix line then
        { stF with unparsedRev :=
            (("[p" ++ toString pg ++ "] ").toList ++ line) :: stF.unparsedRev }
      else stF

/-- The full walker loop of `parse_bank_statement` (lines 708-856),
producing the raw record list and the unparsed-line report. -/
def statementWalk (ccMode : Bool) (defaultYear : Option Nat) (dateOrder : Option (List Char))
    (layout : List Char) (rawLines : List (Nat × List Char)) :
    List Rec × List (List Char) :=
  let fin := rawLines.foldl (walkLine ccMode defaultYear dateOrder)
    ⟨[], [], none, none, none, none, none, false, layout, 0⟩
  (fin.rowsRev.reverse, fin.unparsedRev.reverse)

/-- Lexicographic comparison of character lists (codepoint order). -/
def leChars : List Char → List Char → Bool
  | [], _ => true
  | _ :: _, [] => false
  | a :: as, b :: bs => if a < b then true else if b < a then false else leChars as bs

/-- Missing values sort last (pandas `na_position="last"`). -/
def leOptChars : Option (List Char) → Option (List Char) → Bool
  | none, none => true
  | none, some _ => false
  | some _, none => true
  | some x, some y => leChars x y

def ltOptChars (a b : Option (List Char)) : Bool :=
  leOptChars a b && !leOptChars b a

/-- Sort key of `pd.to_datetime(df["date"], errors="coerce")`: parsed
dates ascending, unparsed raw tokens as NaT.  (The pandas coercion could
itself parse some raw strings; the walker already parsed every date it
could, so raw tokens are modelled as NaT.) -/
def dateKeyOf (r : Rec) : Option (Nat × Nat × Nat) :=
  match r.date with
  | DateVal.ymd y m d => some (y, m, d)
  | DateVal.raw _ => none

def leOptNat3 : Option (Nat × Nat × Nat) → Option (Nat × Nat × Nat) → Bool
  | none, none => true
  | none, some _ => false
  | some _, none => true
  | some a, some b => decide (a ≤ b)

def ltOptNat3 (a b : Option (Nat × Nat × Nat)) : Bool :=
  leOptNat3 a b && !leOptNat3 b a

/-- Stable insertion sort (the order pandas lexsort induces; ties keep
frame order). -/
def insertSorted (le : α → α → Bool) (x : α) : List α → List α
  | [] => [x]
  | y :: ys => if le x y then x :: y :: ys else y :: insertSorted le x ys

def sortStable (le : α → α → Bool) : List α → List α
  | [] => []
  | x :: xs => insertSorted le x (sortStable le xs)

/-- `df.sort_values(["account_type", "account_number", "_d"])`
(pdf_parser.py lines 860-864). -/
def leTypeNumDate (r1 r2 : Rec) : Bool :=
  if ltOptChars r1.account_type r2.account_type then true
  else if ltOptChars r2.account_type r1.account_type then false
  else if ltOptChars r1.account_number r2.account_number then true
  else if ltOptChars r2.account_number r1.account_number then false
  else leOptNat3 (dateKeyOf r1) (dateKeyOf r2)

def sortByTypeNumDate (df : List Rec) : List Rec :=
  sortStable leTypeNumDate df

/-- `df.sort_values(["account_type", "account_number", "date_raw"])`
(pdf_parser.py lines 930-936). -/
def leTypeNumRaw (r1 r2 : Rec) : Bool :=
  if ltOptChars r1.account_type r2.account_type then true
  else if ltOptChars r2.account_type r1.account_type then false
  else if ltOptChars r1.account_number r2.account_number then true
  else if ltOptChars r2.account_number r1.account_number then false
  else leChars r1.date_raw r2.date_raw

def sortByTypeNumRaw (df : List Rec) : List Rec :=
  sortStable leTypeNumRaw df

/-- Median of a rational list (pandas `Series.median`): middle element of
the sorted values, or the mean of the two middle elements. -/
def median (l : List ℚ) : ℚ :=
  let s := sortStable (fun a b => decide (a ≤ b)) l
  let n := s.length
  if n = 0 then 0
  else if n % 2 = 1 then (s.drop (n / 2)).headD 0
  else ((s.drop (n / 2 - 1)).headD 0 + (s.drop (n / 2)).headD 0) / 2

/-- The outlier guard (pdf_parser.py lines 866-874): with at least 50
rows, null out amount, debit and credit on rows whose absolute amount
exceeds 50 times the median absolute amount. -/
def outlierFilter (df : List Rec) : List Rec :=
  if decide (df.length < 50) then df
  else
    let amts := df.filterMap Rec.amount
    if amts.isEmpty then df
    else
      let med := median (amts.map (fun a => |a|))
      if med > 0 then
        let cutoff := med * 50
        df.map (fun r =>
          match r.amount with
          | some a =>
            if |a| > cutoff then { r with amount := none, debit := none, credit := none }
            else r
          | none => r)
      else df

/-- A row carries at least one of amount, debit, credit, balance (the
negation of the `mask_all_none` test at pdf_parser.py lines 875-877). -/
def hasMonetaryField (r : Rec) : Bool :=
  !(r.amount.isNone && r.debit.isNone && r.credit.isNone && r.balance.isNone)

/-- The fully-unusable-row drop (pdf_parser.py lines 875-879): discard any
row whose amount, debit, credit and balance are all missing. -/
def dropAllNoneRows (df : List Rec) : List Rec :=
  df.filter hasMonetaryField

/-- Account-type normalization (pdf_parser.py lines 880-889). -/
def normalizeAccountTypes (df : List Rec) : List Rec :=
  if df.any (fun r => r.account_type = some "credit_card".toList) then
    df.map (fun r =>
      if r.account_type.isNone then { r with account_type := some "credit_card".toList }
      else r)
  else
    df.map (fun r =>
      let t := if r.account_type = some "checking".toList then "checking".toList
        else "savings".toList
      { r with account_type := some t })

/-- Search one line for a balance anchor: the given uppercase label,
then a capture of digits and commas, then an optional dot with exactly two
digits (the regexes at pdf_parser.py lines 903-913). -/
def balanceAnchorAux (label : List Char) : List Char → Option (List Char)
  | [] => none
  | c :: xs =>
    let here :=
      if label.isPrefixOf (toUpperL (c :: xs)) then
        let after := (c :: xs).drop label.length
        let digits := after.takeWhile (fun d => isDigitCh d || d = ',')
        if digits.isEmpty then none
        else
          let after2 := after.drop digits.length
          some (match after2 with
            | '.' :: d1 :: d2 :: _ =>
              if isDigitCh d1 && isDigitCh d2 then digits ++ '.' :: [d1, d2] else digits
            | _ => digits)
      else none
    match here with
    | some cap => some cap
    | none => balanceAnchorAux label xs

/-- The anchor scan of pdf_parser.py lines 899-917: the first line whose
captured "Previous Balance $..." (resp. "New Balance $...") amount
normalizes. -/
def findAnchor (label : List Char) (rawLines : List (Nat × List Char)) : Option ℚ :=
  (rawLines.filterMap (fun pl => (balanceAnchorAux label pl.2).bind normalizeNumber)).head?

/-- `ordered = df.sort_values(["account_number", "date_raw"])`
(pdf_parser.py lines 919-921), carrying original frame positions. -/
def leNumRawIdx (p1 p2 : Nat × Rec) : Bool :=
  if ltOptChars p1.2.account_number p2.2.account_number then true
  else if ltOptChars p2.2.account_number p1.2.account_number then false
  else leChars p1.2.date_raw p2.2.date_raw

/-- The credit-card synthetic-balance step of the post-pass
(pdf_parser.py lines 897-925): when both anchors are found, compute the
running balance over the ordered view and, if it lands on the new balance
within 0.05, write it back to the frame positions; otherwise leave the
frame unchanged. -/
def ccSyntheticStep (rawLines : List (Nat × List Char)) (df : List Rec) : List Rec :=
  match findAnchor "PREVIOUS BALANCE $".toList rawLines,
      findAnchor "NEW BALANCE $".toList rawLines with
  | some prevBal, some newBal =>
    let ordered := sortStable leNumRawIdx df.enum
    let running := cumsumAmounts prevBal (ordered.map Prod.snd)
    match running.getLast? with
    | some (some lastVal) =>
      if |lastVal - newBal| < 1/20 then
        let assignments := (ordered.zip running).map (fun p => (p.1.1, p.2))
        df.enum.map (fun p =>
          match assignments.lookup p.1 with
          | some ob => { p.2 with balance := ob }
          | none => p.2)
      else df
    | _ => df
  | _, _ => df

/-- `_fill_group`'s seeded walk (pdf_parser.py lines 947-965). -/
def fillWalk (current : ℚ) : List Rec → List Rec
  | [] => []
  | r :: rest =>
    if r.line_type = "marker".toList ∧ r.balance.isSome then
      r :: fillWalk (r.balance.getD current) rest
    else
      match r.balance, r.amount with
      | none, some a =>
        let c2 := round2 (current + a)
        { r with balance := some c2 } :: fillWalk c2 rest
      | some b, _ => r :: fillWalk b rest
      | none, none => r :: fillWalk current rest

/-- `_fill_group` (pdf_parser.py lines 938-966): seed from the first
non-null balance of the group; absent a seed the group is unchanged. -/
def fillGroup (g : List Rec) : List Rec :=
  match (g.filterMap Rec.balance).head? with
  | none => g
  | some c0 => fillWalk c0 g

/-- The grouped balance inference (pdf_parser.py lines 927-974): sort by
account type, number and raw date, then apply `_fill_group` per
account-number group; pandas `groupby` emits the groups in sorted key
order (missing key last), keeping frame order inside each group. -/
def inferBalancesStep (df : List Rec) : List Rec :=
  let sorted := sortByTypeNumRaw df
  let keys := sortStable leOptChars ((sorted.map Rec.account_number).eraseDups)
  keys.flatMap (fun k => fillGroup (sorted.filter (fun r => r.account_number = k)))

/-- The whole post-pass of `parse_bank_statement` (lines 857-976). -/
def postPass (ccMode : Bool) (rawLines : List (Nat × List Char)) (rows : List Rec) :
    List Rec :=
  if rows.isEmpty then rows
  else
    let df := sortByTypeNumDate rows
    let df := outlierFilter df
    let df := dropAllNoneRows df
    let df := normalizeAccountTypes df
    let df := if ccMode then ccSyntheticStep rawLines df else df
    if ¬ccMode then inferBalancesStep df else df

/-- `pdf_parser.parse_bank_statement` (lines 687-977). -/
def parseBankStatement (pdfFile : Except Unit PdfDoc) :
    List Rec × List (List Char) × List (Nat × List Char) :=
  let rawLines := extractRawLines pdfFile false true true
  if rawLines.isEmpty then ([], [], [])
  else
    let lineTexts := rawLines.map Prod.snd
    let defaultYear := inferYear lineTexts
    let dateOrder := inferDateOrder lineTexts
    let ccMode := detectCreditCard lineTexts
    let layout := detectLayout lineTexts ccMode
    let reRun :=
      if TABLE_LAYOUTS.contains layout then
        let wordLines := extractRawLines pdfFile true true true
        if !wordLines.isEmpty then
          (wordLines, inferYear (wordLines.map Prod.snd),
            inferDateOrder (wordLines.map Prod.snd))
        else (rawLines, defaultYear, dateOrder)
      else (rawLines, defaultYear, dateOrder)
    let walked := statementWalk ccMode reRun.2.1 reRun.2.2 layout reRun.1
    (postPass ccMode reRun.1 walked.1, walked.2, reRun.1)

/-- `parse_bank_statement` as seen through the caller's exception channel:
the only operation that can raise in the source is the document read
inside `extract_raw_lines`, and its `except Exception` handler (lines
312-313) converts any failure into an empty line list, while the post-pass
wraps its own body in `try ... except ... pass`; no exception escapes, so
the translation returns `Except.ok` of the total function. -/
def parseBankStatementE (pdfFile : Except Unit PdfDoc) :
    Except Unit (List Rec × List (List Char) × List (Nat × List Char)) :=
  Except.ok (parseBankStatement pdfFile)

/-- A minimal transaction record used to exercise the reconciliation
functions on concrete inputs. -/
def plainRec (amount balance : Option ℚ) : Rec :=
  { date := DateVal.raw []
    date_raw := []
    post_date := none
    description := []
    amount := amount
    debit := none
    credit := none
    balance := balance
    account_name := none
    account_number := none
    account_type := none
    line_type := "transaction".toList
    raw_line := []
    page := 0
    raw_line_index := 0 }

/-- A minimal marker record (Beginning/Ending Balance line) carrying only
a stated balance. -/
def plainMarker (balance : Option ℚ) : Rec :=
  { plainRec none balance with line_type := "marker".toList }

/-- A concrete mismatch group exhibiting the NaN reset: a marker with
balance 500, a transaction whose balance is missing, then a transaction
with amount 10 and balance 100. -/
def nanResetRows : List (Nat × Rec) :=
  [(0, plainMarker (some 500)), (1, plainRec (some 10) none),
   (2, plainRec (some 10) (some 100))]

/-! ## Theorems -/

lemma normalizeCore_noMatch (b : Bool) (c : List Char) (h : coreMatch c = false) :
    normalizeCore b c = none := by
  simp [normalizeCore, h]

lemma normalizeCore_badFrac (b : Bool) (c i f : List Char)
    (hs : splitFirst '.' c = some (i, f)) (hf : ¬(1 ≤ f.length ∧ f.length ≤ 2)) :
    normalizeCore b c = none := by
  unfold normalizeCore
  split
  · rfl
  · split
    · rfl
    · have hp : padFrac c = none := by simp [padFrac, hs, hf]
      rw [hp]

/-- C2: normalize_number maps "$1,234.56" to 1234.56, "(12.00)" to -12.00,
and "12.00-" to -12.00; it returns None for "12,345,678" (bare integer
longer than 7 digits) and for "1000000001.00" (magnitude above the cap);
and every token whose stripped core fails the decimal-number shape, or
whose fraction part is not 1-2 digits, yields None (an `Option` result,
never an exception). -/
theorem normalizeNumber_spec :
    (normalizeNumber "$1,234.56".toList = some (123456 / 100) ∧
     normalizeNumber "(12.00)".toList = some (-12) ∧
     normalizeNumber "12.00-".toList = some (-12) ∧
     normalizeNumber "12,345,678".toList = none ∧
     normalizeNumber "1000000001.00".toList = none) ∧
    (∀ raw : List Char, coreMatch (stripCore raw).2 = false →
      normalizeNumber raw = none) ∧
    (∀ (raw i f : List Char), splitFirst '.' (stripCore raw).2 = some (i, f) →
      ¬(1 ≤ f.length ∧ f.length ≤ 2) → normalizeNumber raw = none) := by
  refine ⟨⟨?_, ?_, ?_, ?_, ?_⟩, ?_, ?_⟩
  · simp +decide [normalizeNumber, normalizeCore, stripCore, pyStrip, coreMatch, padFrac,
      splitFirst, allDigits, isDigitCh, isWsChar, countChar, removeChar, ratOfCore,
      parseNatDigits, List.dropWhile, List.filter]
    norm_num
  · simp +decide [normalizeNumber, normalizeCore, stripCore, pyStrip, coreMatch, padFrac,
      splitFirst, allDigits, isDigitCh, isWsChar, countChar, removeChar, ratOfCore,
      parseNatDigits, List.dropWhile, List.filter]
  · simp +decide [normalizeNumber, normalizeCore, stripCore, pyStrip, coreMatch, padFrac,
      splitFirst, allDigits, isDigitCh, isWsChar, countChar, removeChar, ratOfCore,
      parseNatDigits, List.dropWhile, List.filter]
  · decide
  · simp +decide [normalizeNumber, normalizeCore, stripCore, pyStrip, coreMatch, padFrac,
      splitFirst, allDigits, isDigitCh, isWsChar, countChar, removeChar, ratOfCore,
      parseNatDigits, List.dropWhile, List.filter]
  · intro raw h
    unfold normalizeNumber
    split
    · rfl
    · exact normalizeCore_noMatch _ _ h
  · intro raw i f hs hf
    unfold normalizeNumber
    split
    · rfl
    · exact normalizeCore_badFrac _ _ i f hs hf

/-- Witness for C2: the general rejection clauses applied at the
concrete tokens "abc" (core shape failure) and "1.234" (3-digit
fraction). -/
theorem normalizeNumber_spec_witness :
    normalizeNumber "abc".toList = none ∧ normalizeNumber "1.234".toList = none :=
  ⟨normalizeNumber_spec.2.1 _ (by decide),
   normalizeNumber_spec.2.2 _ "1".toList "234".toList (by decide) (by decide)⟩

lemma dropWhile_eq_self_of_head {p : Char → Bool} {l : List Char}
    (h : ∀ c, l.head? = some c → p c = false) : l.dropWhile p = l := by
  cases l with
  | nil => rfl
  | cons a as => rw [List.dropWhile_cons, h a rfl]; simp

lemma pyStrip_eq_self {t : List Char}
    (hh : ∀ c, t.head? = some c → isWsChar c = false)
    (hl : ∀ c, t.getLast? = some c → isWsChar c = false) : pyStrip t = t := by
  unfold pyStrip
  rw [dropWhile_eq_self_of_head hh]
  rw [dropWhile_eq_self_of_head
    (fun c hc => hl c ((List.head?_reverse t) ▸ hc))]
  exact List.reverse_reverse t

lemma mem_of_getLast?_eq {t : List Char} {c : Char} (h : t.getLast? = some c) :
    c ∈ t := by
  rcases List.mem_getLast?_eq_getLast (l := t) (x := c) (by rw [h]; rfl) with ⟨hne, hx⟩
  exact hx ▸ List.getLast_mem hne

lemma stripCore_eval (t : List Char)
    (h1 : pyStrip t = t)
    (h2 : ¬t.getLast? = some '-')
    (h3 : ¬t.head? = some '(')
    (h4 : ¬(removeChar ',' (removeChar '$' t)).head? = some '-') :
    stripCore t = (false, removeChar ',' (removeChar '$' t)) := by
  unfold stripCore
  simp [h1, h2, h3, h4]

lemma normalizeCore_negFlag (c : List Char) (v : ℚ)
    (h : normalizeCore false c = some v) : normalizeCore true c = some (-v) := by
  unfold normalizeCore at h ⊢
  split at h
  · exact absurd h (by simp)
  next h1 =>
    rw [if_neg h1]
    split at h
    · exact absurd h (by simp)
    next h2 =>
      rw [if_neg h2]
      cases hp : padFrac c with
      | none => rw [hp] at h; exact absurd h (by simp)
      | some core =>
        rw [hp] at h
        change (if ratOfCore core > 1000000000 then none
          else some (if false = true then -(ratOfCore core) else ratOfCore core)) = some v at h
        change (if ratOfCore core > 1000000000 then none
          else some (if true = true then -(ratOfCore core) else ratOfCore core)) = some (-v)
        by_cases hbig : ratOfCore core > 1000000000
        · rw [if_pos hbig] at h; exact absurd h (by simp)
        · rw [if_neg hbig] at h ⊢
          simp only [Bool.false_eq_true, if_false, if_true] at h ⊢
          rw [Option.some_inj] at h
          rw [h]

/-- C10: normalize_number also accepts a leading minus sign, negating the
value of the corresponding positive token: for every whitespace-trimmed
token free of minus signs and opening parentheses that normalizes to `v`,
prepending "-" yields `-v`. -/
theorem normalizeNumber_leading_minus (t : List Char) (v : ℚ)
    (hh : ∀ c, t.head? = some c → isWsChar c = false)
    (hl : ∀ c, t.getLast? = some c → isWsChar c = false)
    (hm : ('-' : Char) ∉ t) (hp : ('(' : Char) ∉ t)
    (hv : normalizeNumber t = some v) :
    normalizeNumber ('-' :: t) = some (-v) := by
  have hne : t ≠ [] := by
    rintro rfl
    simp [normalizeNumber] at hv
  have hps : pyStrip t = t := pyStrip_eq_self hh hl
  have h2 : ¬t.getLast? = some '-' := by
    intro hc
    exact hm (mem_of_getLast?_eq hc)
  have h3 : ¬t.head? = some '(' := by
    intro hc
    exact hp (List.mem_of_mem_head? hc)
  have hsubmem : ∀ c : Char, c ∈ removeChar ',' (removeChar '$' t) → c ∈ t := by
    intro c hc
    exact List.mem_of_mem_filter (List.mem_of_mem_filter hc)
  have h4 : ¬(removeChar ',' (removeChar '$' t)).head? = some '-' := by
    intro hc
    exact hm (hsubmem '-' (List.mem_of_mem_head? hc))
  have hstripT := stripCore_eval t hps h2 h3 h4
  -- the last element of ('-' :: t) is the last element of t
  have hlastCons : ('-' :: t).getLast? = t.getLast? := by
    cases t with
    | nil => exact absurd rfl hne
    | cons b bs => exact List.getLast?_cons_cons
  have hpsm : pyStrip ('-' :: t) = '-' :: t := by
    refine pyStrip_eq_self ?_ ?_
    · intro c hc
      rw [List.head?_cons, Option.some_inj] at hc
      rw [← hc]
      decide
    · intro c hc
      exact hl c (hlastCons ▸ hc)
  have hrm : removeChar ',' (removeChar '$' ('-' :: t)) =
      '-' :: removeChar ',' (removeChar '$' t) := by
    simp +decide [removeChar, List.filter_cons]
  have hstripM : stripCore ('-' :: t) = (true, removeChar ',' (removeChar '$' t)) := by
    unfold stripCore
    simp only [hpsm, hlastCons, hrm]
    simp [h2, hrm]
  have hvCore : normalizeCore false (removeChar ',' (removeChar '$' t)) = some v := by
    unfold normalizeNumber at hv
    rw [if_neg (by simp [hne])] at hv
    rw [hstripT] at hv
    exact hv
  unfold normalizeNumber
  rw [if_neg (by simp)]
  rw [hstripM]
  exact normalizeCore_negFlag _ v hvCore

/-- Witness for C10: the leading-minus rule applied at the token "12.00". -/
theorem normalizeNumber_leading_minus_witness :
    normalizeNumber "-12.00".toList = some (-12) := by
  have h := normalizeNumber_leading_minus "12.00".toList 12
    (by decide) (by decide) (by decide) (by decide)
    (by simp +decide [normalizeNumber, normalizeCore, stripCore, pyStrip, coreMatch,
      padFrac, splitFirst, allDigits, isDigitCh, isWsChar, countChar, removeChar,
      ratOfCore, parseNatDigits, List.dropWhile, List.filter])
  exact h

/-- C9: sign inference may flip or keep the sign but never changes the
magnitude: `|infer_signed_amount(a, d, s)| = |a|` for every amount,
description and section sign. -/
theorem inferSignedAmount_abs (a : ℚ) (d : List Char) (s : Option Int) :
    |inferSignedAmount a d s| = |a| := by
  unfold inferSignedAmount
  dsimp only
  split_ifs <;> simp [abs_abs, abs_neg]

/-- C6: an active section sign is authoritative (+1 forces `|a|`, -1
forces `-|a|`, whatever the description); with no section sign and no
specific phrase override, hitting both keyword-hint sets yields the debit
sign, hitting exactly one yields that set's sign, and hitting neither
returns the amount unchanged. -/
theorem inferSignedAmount_spec (a : ℚ) (d : List Char) :
    inferSignedAmount a d (some 1) = |a| ∧
    inferSignedAmount a d (some (-1)) = -|a| ∧
    ((wbSearch "INTEREST PAYMENT".toList (toUpperL d) ||
        wbSearch "INTEREST PAID".toList (toUpperL d)) = false →
     (wbSearch "CREDIT CARD PMT".toList (toUpperL d) ||
        wbSearch "CREDIT CARD PAYMENT".toList (toUpperL d)) = false →
      (CREDIT_DESC_HINTS.any (fun h => containsSub h (toUpperL d)) = true →
        DEBIT_DESC_HINTS.any (fun h => containsSub h (toUpperL d)) = true →
          inferSignedAmount a d none = -|a|) ∧
      (CREDIT_DESC_HINTS.any (fun h => containsSub h (toUpperL d)) = true →
        DEBIT_DESC_HINTS.any (fun h => containsSub h (toUpperL d)) = false →
          inferSignedAmount a d none = |a|) ∧
      (CREDIT_DESC_HINTS.any (fun h => containsSub h (toUpperL d)) = false →
        DEBIT_DESC_HINTS.any (fun h => containsSub h (toUpperL d)) = true →
          inferSignedAmount a d none = -|a|) ∧
      (CREDIT_DESC_HINTS.any (fun h => containsSub h (toUpperL d)) = false →
        DEBIT_DESC_HINTS.any (fun h => containsSub h (toUpperL d)) = false →
          inferSignedAmount a d none = a)) := by
  refine ⟨by simp [inferSignedAmount], by simp [inferSignedAmount], ?_⟩
  intro h1 h2
  have g1 : ¬((wbSearch "INTEREST PAYMENT".toList (toUpperL d) ||
      wbSearch "INTEREST PAID".toList (toUpperL d)) = true) := by
    rw [h1]
    exact Bool.false_ne_true
  have g2 : ¬((wbSearch "CREDIT CARD PMT".toList (toUpperL d) ||
      wbSearch "CREDIT CARD PAYMENT".toList (toUpperL d)) = true) := by
    rw [h2]
    exact Bool.false_ne_true
  refine ⟨fun hc hd => ?_, fun hc hd => ?_, fun hc hd => ?_, fun hc hd => ?_⟩ <;>
    (unfold inferSignedAmount
     dsimp only
     rw [if_neg (by simp), if_neg (by simp), if_neg g1, if_neg g2]
     simp [hc, hd])

/-- Witness for C6: the keyword branches applied at concrete
descriptions (credit-only hit, and credit-and-debit hit). -/
theorem inferSignedAmount_spec_witness :
    inferSignedAmount 5 "DEPOSIT XYZ".toList none = 5 ∧
    inferSignedAmount 5 "DEPOSIT FEE".toList none = -5 := by
  constructor
  · have h := ((inferSignedAmount_spec 5 "DEPOSIT XYZ".toList).2.2
      (by decide) (by decide)).2.1 (by decide) (by decide)
    rw [h]
    norm_num
  · have h := ((inferSignedAmount_spec 5 "DEPOSIT FEE".toList).2.2
      (by decide) (by decide)).1 (by decide) (by decide)
    rw [h]
    norm_num

/-- C4: the source counts every pattern hit, not distinct patterns — two
lines that each contain only "Credit Limit" set the credit-card flag even
though only one distinct indicator occurs, contradicting the claim (and
the function's own docstring, which says "2 distinct CC indicator
patterns"). -/
theorem detectCreditCard_repeated_single_phrase :
    detectCreditCard ["Credit Limit".toList, "Credit Limit".toList] = true ∧
    distinctIndicatorCount ["Credit Limit".toList, "Credit Limit".toList] = 1 := by
  constructor <;> decide

/-- C8 (amended): for a line matched by the credit-card grammar, a
description with no payment phrase, no PMT token and no credit/refund
keyword yields `amount = -|a|`, no credit, and — when the amount is
nonzero — `debit = |a|`; payment phrasing yields `amount = +|a|`, no
debit, and — when nonzero — `credit = |a|`.  (At amount 0 the source
stores neither debit nor credit, which is the one correction to the
claim.) -/
theorem parseLineCredit_sign (line : List Char) (y : Option Nat)
    (an acc at' ord : Option (List Char)) (td pd ref rest araw : List Char) (a : ℚ)
    (hm : ccMatchLine line = some (td, pd, ref, rest, araw))
    (ha : normalizeNumber araw = some a) (r : Rec)
    (hr : parseLineCredit line y an acc at' ord = some r) :
    (((ccPaymentStrict (toUpperL (pyStrip rest)) ||
        wbSearch "PMT".toList (toUpperL (pyStrip rest))) = false →
      (CC_CREDIT_KEYWORDS.any (fun k => containsSub k (toUpperL (pyStrip rest)))) = false →
      r.amount = some (-|a|) ∧ r.credit = none ∧ (a ≠ 0 → r.debit = some |a|)) ∧
     ((ccPaymentStrict (toUpperL (pyStrip rest)) ||
        wbSearch "PMT".toList (toUpperL (pyStrip rest))) = true →
      r.amount = some |a| ∧ r.debit = none ∧ (a ≠ 0 → r.credit = some |a|))) := by
  unfold parseLineCredit at hr
  rw [hm] at hr
  simp only at hr
  rw [ha] at hr
  simp only [Option.some_inj] at hr
  subst hr
  constructor
  · intro hpay hcred
    simp only [hpay, hcred, Bool.false_or, Bool.or_false, Bool.false_eq_true, if_false]
    refine ⟨trivial, ?_, ?_⟩
    · rw [if_neg]
      simp only [gt_iff_lt, not_lt]
      exact neg_nonpos_of_nonneg (abs_nonneg a)
    · intro ha0
      rw [if_pos]
      · rw [abs_neg, abs_abs]
      · exact neg_neg_of_pos (abs_pos.mpr ha0)
  · intro hpay
    simp only [hpay, Bool.true_or, if_true]
    refine ⟨trivial, ?_, ?_⟩
    · rw [if_neg]
      simp only [not_lt]
      exact abs_nonneg a
    · intro ha0
      rw [if_pos]
      exact abs_pos.mpr ha0

/-- Witness for C8: the purchase branch applied at a concrete
"AMAZON.COM" line with amount 45.67. -/
theorem parseLineCredit_sign_witness :
    (parseLineCredit "01/02 01/03 12345678 AMAZON.COM 45.67".toList none none none
      none none).map Rec.amount = some (some (-(4567 / 100))) := by
  have hm : ccMatchLine "01/02 01/03 12345678 AMAZON.COM 45.67".toList =
      some ("01/02".toList, "01/03".toList, "12345678".toList, "AMAZON.COM".toList,
        "45.67".toList) := by decide
  have ha : normalizeNumber "45.67".toList = some (4567 / 100) := by
    simp +decide [normalizeNumber, normalizeCore, stripCore, pyStrip, coreMatch, padFrac,
      splitFirst, allDigits, isDigitCh, isWsChar, countChar, removeChar, ratOfCore,
      parseNatDigits, List.dropWhile, List.filter]
    norm_num
  have hsome : ∃ r, parseLineCredit "01/02 01/03 12345678 AMAZON.COM 45.67".toList
      none none none none none = some r := by
    unfold parseLineCredit
    rw [hm]
    simp only
    rw [ha]
    exact ⟨_, rfl⟩
  obtain ⟨r, hr⟩ := hsome
  have h := ((parseLineCredit_sign _ none none none none none _ _ _ _ _ _ hm ha r hr).1
    (by decide) (by decide)).1
  rw [hr, Option.map_some', h]
  norm_num [abs_of_pos]

/-- C8 counterexample: a credit-card line with amount 0.00 and no payment
or credit keyword parses to a record whose amount is 0 but whose debit is
`None`, not `|amount| = 0` — refuting the unqualified "debit = |amount|". -/
theorem parseLineCredit_zero_amount_cex :
    (parseLineCredit "01/02 01/03 12345678 AMAZON.COM 0.00".toList none none none
      none none).map Rec.amount = some (some 0) ∧
    (parseLineCredit "01/02 01/03 12345678 AMAZON.COM 0.00".toList none none none
      none none).map Rec.debit = some none := by
  have hm : ccMatchLine "01/02 01/03 12345678 AMAZON.COM 0.00".toList =
      some ("01/02".toList, "01/03".toList, "12345678".toList, "AMAZON.COM".toList,
        "0.00".toList) := by decide
  have ha : normalizeNumber "0.00".toList = some 0 := by
    simp +decide [normalizeNumber, normalizeCore, stripCore, pyStrip, coreMatch, padFrac,
      splitFirst, allDigits, isDigitCh, isWsChar, countChar, removeChar, ratOfCore,
      parseNatDigits, List.dropWhile, List.filter]
  unfold parseLineCredit
  rw [hm]
  simp only
  rw [ha]
  constructor <;> simp +decide [abs_zero]

lemma buildTxnRec_hasMonetary (line dateRaw desc : List Char)
    (amount balance debit0 credit0 : Option ℚ) (y : Option Nat)
    (an acc at' ord : Option (List Char)) (r : Rec)
    (h : buildTxnRec line dateRaw desc amount balance debit0 credit0 y an acc at' ord =
      some r) : hasMonetaryField r = true := by
  unfold buildTxnRec at h
  dsimp only at h
  split at h
  · exact absurd h (by simp)
  next hg =>
    rw [Option.some_inj] at h
    subst h
    simp only [hasMonetaryField, Bool.not_eq_true']
    simp only [Bool.and_eq_true] at hg
    rw [Bool.eq_false_iff]
    intro hcontra
    simp only [Bool.and_eq_true] at hcontra
    tauto

/-- Supporting invariant: every record the standard grammar returns with
`line_type = "transaction"` carries at least one of amount, balance,
debit, credit (an all-null candidate is discarded by `parse_line`), and
every row surviving the reconciliation drop carries at least one of them
as well.  This covers the two guards the claim cites; the end-to-end
statement over the returned frame fails, see
`ccSyntheticStep_nulls_surviving_row`. -/
theorem parseLine_records_nonnull :
    (∀ (line : List Char) (y : Option Nat) (an acc at' ord : Option (List Char)) (r : Rec),
      parseLine line y an acc at' ord = some r →
      r.line_type = "transaction".toList → hasMonetaryField r = true) ∧
    (∀ (df : List Rec) (r : Rec), r ∈ dropAllNoneRows df → hasMonetaryField r = true) := by
  constructor
  · intro line y an acc at' ord r h ht
    unfold parseLine at h
    split at h
    · exact absurd h (by simp)
    · dsimp only at h
      split at h
      · exact absurd h (by simp)
      · split at h
        · exact absurd h (by simp)
        · split at h
          · rw [Option.some_inj] at h
            subst h
            simp at ht
          · exact buildTxnRec_hasMonetary _ _ _ _ _ _ _ _ _ _ _ _ _ h
  · intro df r h
    unfold dropAllNoneRows at h
    exact (List.mem_filter.mp h).2

/-- The supporting invariant applied to the record parsed from a
concrete standard-grammar line. -/
theorem parseLine_records_nonnull_witness :
    (parseLine "01/05 Grocery Store 45.67".toList (some 2024) none none none none).map
      hasMonetaryField = some true := by
  have hlt : (parseLine "01/05 Grocery Store 45.67".toList (some 2024) none none none
      none).map Rec.line_type = some ("transaction".toList) := by
    simp +decide [parseLine, dateStartMatch, splitWs, splitWsAux, popTrailing,
      popAmountsAux, isAmountToken, joinWs, pyStrip, isWsChar, isDigitCh, isSepCh,
      takeDigitsUpTo, txnFields, buildTxnRec, deriveDebitCredit, looksMoneyTok,
      allDigits, normalizeNumber, normalizeCore, stripCore, coreMatch, padFrac,
      splitFirst, countChar, removeChar, ratOfCore, parseNatDigits, List.dropWhile,
      List.filter, List.intercalate, List.intersperse, parseDate, splitSeps,
      splitSepsAux, parseIntPy, parseDateFormats, dateValid, daysInMonth, isLeap]
    norm_num
    exact ⟨_, ⟨by simp, rfl⟩, rfl⟩
  rcases hr : parseLine "01/05 Grocery Store 45.67".toList (some 2024) none none none
      none with _ | r
  · rw [hr] at hlt
    simp at hlt
  · rw [hr] at hlt
    simp only [Option.map_some', Option.some_inj] at hlt
    rw [Option.map_some', parseLine_records_nonnull.1 _ _ _ _ _ _ r hr hlt]

/-- C1: refuted end to end — the claimed invariant fails on the records
`parse_bank_statement` returns.  `parse_line` does discard the all-null
candidate and the reconciliation drop does filter all-null rows (see
`parseLine_records_nonnull`), but the credit-card synthetic-balance
commit (pdf_parser.py lines 897-925) runs after that drop and writes the
skip-NaN running series — unknown at every missing-amount position —
over the balance column of the surviving rows.  A transaction row whose
amount, debit and credit were nulled by the outlier guard (lines
866-874) survives the drop on its stated balance alone; the commit then
overwrites that balance with the unknown value, so the returned frame
holds a transaction row with all four monetary fields null.  Shown at
the deciding step: a balance-only row enters `ccSyntheticStep` with a
monetary field and leaves it with none once the anchors match. -/
theorem ccSyntheticStep_nulls_surviving_row :
    hasMonetaryField (plainRec none (some 50)) = true ∧
    (ccSyntheticStep
        [(1, "Previous Balance $100.00".toList), (1, "New Balance $110.00".toList)]
        [plainRec none (some 50), plainRec (some 10) none]).map hasMonetaryField =
      [false, true] := by
  constructor
  · simp [hasMonetaryField, plainRec]
  · simp +decide [ccSyntheticStep, findAnchor, balanceAnchorAux, toUpperL, upChar,
      normalizeNumber, normalizeCore, stripCore, coreMatch, padFrac, splitFirst,
      countChar, removeChar, ratOfCore, parseNatDigits, allDigits, isDigitCh,
      sortStable, insertSorted, leNumRawIdx, ltOptChars, leOptChars, leChars,
      cumsumAmounts, cumsumAmountsGo, plainRec, hasMonetaryField, List.enum,
      List.enumFrom, List.lookup, List.dropWhile, List.filter, List.takeWhile]
    norm_num
    simp [hasMonetaryField]

lemma mismatchStep_cons (acct : Option (List Char)) (tol : ℚ) (lb : Option (Option ℚ))
    (idx : Nat) (r : Rec) (rows : List (Nat × Rec)) :
    mismatchStep acct tol lb ((idx, r) :: rows) =
      (rowEntry acct tol lb (idx, r)).toList ++
        mismatchStep acct tol (some r.balance) rows := by
  obtain ⟨dt, dr, pdt, ds, am, db, cr, bl, an2, ac2, at2, lt, rl, pg, ri⟩ := r
  by_cases hmk : lt = "marker".toList
  · simp only [mismatchStep, rowEntry]
    simp [hmk]
  · simp only [mismatchStep, rowEntry]
    rw [if_neg hmk, if_neg hmk]
    rcases am with _ | a <;> rcases bl with _ | b <;> rcases lb with _ | (_ | l) <;> simp
    split_ifs <;> simp

lemma lastTrackedBal_cons (init : Option (Option ℚ)) (p : Nat × Rec)
    (l : List (Nat × Rec)) :
    lastTrackedBal init (p :: l) = lastTrackedBal (some p.2.balance) l := rfl

lemma mismatchStep_spec (acct : Option (List Char)) (tol : ℚ) (rows : List (Nat × Rec)) :
    ∀ lb, mismatchStep acct tol lb rows =
      (List.range rows.length).filterMap
        (fun k => (rows.get? k).bind (rowEntry acct tol (lastTrackedBal lb (rows.take k)))) := by
  induction rows with
  | nil => intro lb; rfl
  | cons p rows ih =>
    intro lb
    obtain ⟨idx, r⟩ := p
    rw [List.length_cons, List.range_succ_eq_map, List.filterMap_cons, List.filterMap_map]
    have hcomp : ((fun k => (((idx, r) :: rows).get? k).bind
        (rowEntry acct tol (lastTrackedBal lb (((idx, r) :: rows).take k)))) ∘ Nat.succ) =
        (fun k => (rows.get? k).bind
          (rowEntry acct tol (lastTrackedBal (some r.balance) (rows.take k)))) := by
      funext k
      simp [List.take_succ_cons, lastTrackedBal_cons]
    rw [hcomp]
    have hf0 : (((idx, r) :: rows).get? 0).bind
        (rowEntry acct tol (lastTrackedBal lb (((idx, r) :: rows).take 0))) =
        rowEntry acct tol lb (idx, r) := by
      simp [lastTrackedBal]
    rw [hf0]
    rw [mismatchStep_cons, ih (some r.balance)]
    cases hre : rowEntry acct tol lb (idx, r) with
    | none => simp
    | some e => simp

/-- C5 (amended): `compute_balance_mismatches` returns, per account-number
group and walking in order, exactly one entry for each transaction
(non-marker) row whose amount and balance are present and whose tracked
prior balance is a known value satisfying
`|round2(prior + amount) - round2 balance| > tol` — where the tracked
prior is the immediately preceding row's stored balance, because every
row, marker or transaction, overwrites `last_balance` with its own
balance (a missing balance makes it unknown: missing frame values are
float NaN and pass the code's `is not None` checks); the entry carries
the prior, expected, provided and `delta = round2(provided - expected)`
values; marker rows are never flagged. -/
theorem computeBalanceMismatches_spec (tol : ℚ)
    (groups : List (Option (List Char) × List (Nat × Rec))) :
    computeBalanceMismatches groups tol =
      groups.flatMap (fun g =>
        (List.range g.2.length).filterMap
          (fun k => (g.2.get? k).bind
            (rowEntry g.1 tol (lastTrackedBal none (g.2.take k))))) := by
  unfold computeBalanceMismatches
  congr 1
  funext g
  exact mismatchStep_spec g.1 tol g.2 none

/-- C5 counterexample: on the group "marker with balance 500, transaction
with missing balance, transaction with amount 10 and balance 100" the
source flags nothing — the missing balance overwrites `last_balance`
with NaN (NaN `is not None`), so the final row's comparison is against
NaN and False — while the claim's tracker ("updated by any non-null
balance") still holds 500 and predicts exactly one entry there. -/
theorem computeBalanceMismatches_nan_reset_cex :
    computeBalanceMismatches [(none, nanResetRows)] (1 / 100) = [] ∧
    ((List.range nanResetRows.length).filterMap
      (fun k => (nanResetRows.get? k).bind
        (claimRowEntry none (1 / 100)
          (claimLastBalFrom none (nanResetRows.take k))))).length = 1 := by
  constructor
  · simp +decide [computeBalanceMismatches, mismatchStep, nanResetRows, plainMarker,
      plainRec]
  · have hrange : List.range nanResetRows.length = [0, 1, 2] := rfl
    rw [hrange]
    simp only [List.filterMap_cons, List.filterMap_nil]
    norm_num [nanResetRows, plainMarker, plainRec, claimRowEntry, claimLastBalFrom,
      claimUpdLastBal, round2, List.take]
    simp +decide

lemma cumsumGo_eq_spec (l : List Rec) : ∀ c, cumsumAmountsGo c l = specRunning c l := by
  induction l with
  | nil => intro c; rfl
  | cons r rest ih =>
    intro c
    unfold specRunning
    rw [List.length_cons, List.range_succ_eq_map, List.map_cons, List.map_map]
    cases ha : r.amount with
    | some a =>
      simp only [cumsumAmountsGo, ha]
      congr 1
      · simp [ha, presentSum]
      · rw [ih (c + a)]
        unfold specRunning
        congr 1
        funext k
        simp only [Function.comp_apply, List.get?_cons_succ, List.take_succ_cons]
        have hps : presentSum (r :: rest.take (k + 1)) =
            a + presentSum (rest.take (k + 1)) := by
          simp [presentSum, ha]
        rw [hps, ← add_assoc]
    | none =>
      simp only [cumsumAmountsGo, ha]
      congr 1
      · simp [ha]
      · rw [ih c]
        unfold specRunning
        congr 1
        funext k
        simp only [Function.comp_apply, List.get?_cons_succ, List.take_succ_cons]
        have hps : presentSum (r :: rest.take (k + 1)) =
            presentSum (rest.take (k + 1)) := by
          simp [presentSum, ha]
        rw [hps]

lemma getLast?_cons_of_ne {α : Type} (a : α) {l : List α} (h : l ≠ []) :
    (a :: l).getLast? = l.getLast? := by
  cases l with
  | nil => exact absurd rfl h
  | cons x xs => exact List.getLast?_cons_cons

lemma cumsum_getLast (l : List Rec) (hne : l ≠ []) (c : ℚ) :
    (cumsumAmountsGo c l).getLast? =
      some (((l.getLast?).bind Rec.amount).map (fun _ => c + presentSum l)) := by
  rw [cumsumGo_eq_spec l c]
  unfold specRunning
  rw [List.getLast?_map]
  obtain ⟨m, hm⟩ : ∃ m, l.length = m + 1 := by
    cases l with
    | nil => exact absurd rfl hne
    | cons x xs => exact ⟨xs.length, rfl⟩
  rw [hm, List.range_succ, List.getLast?_concat]
  simp only [Option.map_some']
  have h1 : l.get? m = l.getLast? := by
    rw [List.getLast?_eq_get?, hm]
    rfl
  have h2 : l.take (m + 1) = l := by
    rw [← hm]
    exact List.take_length l
  rw [h1, h2]

/-- C7: the credit-card synthetic running balance — the skip-NaN
cumulative sum seeded at the previous balance, unknown at each
missing-amount position — is committed in full exactly when its final
value is known (the last ordered record has an amount) and matches the
new-balance anchor within 0.05; otherwise the records are left entirely
unchanged.  No partial assignment: a commit writes every position
(including the unknown holes), a non-commit writes none. -/
theorem ccApplySyntheticBalance_spec (prevBal newBal : ℚ) (ordered : List Rec) :
    ((ordered.getLast?).bind Rec.amount = none →
      ccApplySyntheticBalance prevBal newBal ordered = ordered) ∧
    ((ordered.getLast?).bind Rec.amount ≠ none →
      (|prevBal + presentSum ordered - newBal| < 1 / 20 →
        ccApplySyntheticBalance prevBal newBal ordered =
          (ordered.zip (specRunning prevBal ordered)).map
            (fun p => { p.1 with balance := p.2 })) ∧
      (¬|prevBal + presentSum ordered - newBal| < 1 / 20 →
        ccApplySyntheticBalance prevBal newBal ordered = ordered)) := by
  by_cases hne : ordered = []
  · subst hne
    exact ⟨fun _ => rfl, fun h => absurd rfl h⟩
  · unfold ccApplySyntheticBalance cumsumAmounts
    dsimp only
    rw [cumsum_getLast ordered hne prevBal]
    cases hlast : (ordered.getLast?).bind Rec.amount with
    | none =>
      simp
    | some a =>
      simp only [Option.map_some']
      refine ⟨fun h => absurd h (by simp), fun _ => ⟨fun hc => ?_, fun hc => ?_⟩⟩
      · rw [if_pos hc, cumsumGo_eq_spec]
      · rw [if_neg hc]

/-- Witness for C7: the commit branch applied to concrete records — the
first with a missing amount and stated balance 50, the second with
amount 10 — previous balance 100, new balance 110: the commit overwrites
the stated balance with the unknown hole and writes 110 into the second
row. -/
theorem ccApplySyntheticBalance_spec_witness :
    ccApplySyntheticBalance 100 110 [plainRec none (some 50), plainRec (some 10) none] =
      [plainRec none none, { plainRec (some 10) none with balance := some 110 }] := by
  have h := ((ccApplySyntheticBalance_spec 100 110
      [plainRec none (some 50), plainRec (some 10) none]).2
    (by simp [plainRec])).1
    (by norm_num [presentSum, plainRec, List.filterMap_cons, List.filterMap_nil,
      List.sum_cons, List.sum_nil])
  rw [h]
  simp +decide [specRunning, presentSum, plainRec, List.range_succ]
  norm_num

/-- C3 counterexample: a document that cannot be opened does *not* make
`parse_bank_statement` raise — `extract_raw_lines` swallows the failure
(`except Exception: return []`, lines 312-313) and the parser returns the
empty result triple to its caller. -/
theorem parseBankStatement_error_returns_result :
    parseBankStatementE (Except.error ()) = Except.ok ([], [], []) := rfl

/-- C3 (amended): systemic extraction failure does not propagate:
`extract_raw_lines` converts any document-read failure into an empty line
list, `parse_bank_statement` then returns the empty (records, unparsed,
raw lines) triple, and no input whatsoever makes `parse_bank_statement`
raise to its caller. -/
theorem parseBankStatement_no_error :
    (∀ e : Unit, extractRawLines (Except.error e) false true true = [] ∧
      parseBankStatementE (Except.error e) = Except.ok ([], [], [])) ∧
    (∀ pdfFile : Except Unit PdfDoc, (parseBankStatementE pdfFile).isOk = true) := by
  constructor
  · intro e
    exact ⟨rfl, rfl⟩
  · intro pdfFile
    rfl

end BudgetNerd
